import Mathlib

/-!
Shallow embedding of the `txflash` two-bank transactional flash engine
(`src/include/txflash.hh`, instantiated at the memory-backed bank of
`src/include/txflash_dummy.hh`, whose `position_t` is `uint16_t` and whose
`write_chunk`/`read_chunk` are plain `memcpy`).  Banks are byte lists
(`List Nat`, each entry < 256 in meaningful states), positions are `Nat`
with explicit `% 65536` wherever the C++ stores into a `position_t`.
`write` additionally returns the trace of bank-level operations (erases
and chunk writes) it issues, in source order, so that power-loss prefixes
of a `write` can be examined.
-/

namespace Txf

/-- Flash bank identifier, mirroring the two-valued `Bank` enum of `TxFlash`. -/
inductive Bank where
  | BANK0
  | BANK1
deriving DecidableEq, Repr

/-- Outcome of the recovery scan, mirroring the `State` enum of `TxFlash`. -/
inductive PState where
  | empty
  | valid
  | invalid
deriving DecidableEq, Repr

/-- Width in bytes of `position_t`: `sizeof(uint16_t) = 2` for the dummy banks. -/
def sizeL : Nat := 2

/-- The `RECORD` header byte, `(uint8_t)((uint16_t)empty_value + 1)`. -/
def recordByte (E : Nat) : Nat := (E + 1) % 256

/-- Little-endian byte image of a 16-bit length, as `memcpy` of a `uint16_t` lays it out. -/
def le16 (n : Nat) : List Nat := [n % 256, n / 256 % 256]

/-- Decode the 16-bit little-endian length stored at offset `p` (the `read_chunk`
of `sizeof(position_t)` bytes into a `position_t` variable). -/
def readLE16 (b : List Nat) (p : Nat) : Nat := b.getD p 0 + 256 * b.getD (p + 1) 0

/-- `TxFlash::remaining`: bank capacity minus a position, in `uint16_t` arithmetic. -/
def remBytes (len pos : Nat) : Nat := (len + 65536 - pos) % 65536

/-- `write_chunk` of the dummy bank: overwrite `d` into `b` starting at `p`
(`memcpy` within the bank buffer; the bank size never changes). -/
def writeBytes (b : List Nat) (p : Nat) (d : List Nat) : List Nat :=
  (List.range b.length).map fun i =>
    if p ≤ i ∧ i < p + d.length then d.getD (i - p) 0 else b.getD i 0

/-- `read_chunk` of the dummy bank: the `n` bytes of `b` starting at `p`. -/
def readBytes (b : List Nat) (p n : Nat) : List Nat :=
  (List.range n).map fun i => b.getD (p + i) 0

/-- The engine state: the two bank contents plus the four cursors
(`m_read_bank`, `m_write_bank`, `m_read_position`, `m_write_position`). -/
structure TxState where
  bank0 : List Nat
  bank1 : List Nat
  read_bank : Bank
  write_bank : Bank
  read_position : Nat
  write_position : Nat
deriving DecidableEq, Repr

/-- Contents of the designated bank. -/
def bankData (s : TxState) : Bank → List Nat
  | Bank.BANK0 => s.bank0
  | Bank.BANK1 => s.bank1

/-- `m_write_bank == BANK0 ? BANK1 : BANK0`. -/
def otherBank : Bank → Bank
  | Bank.BANK0 => Bank.BANK1
  | Bank.BANK1 => Bank.BANK0

/-- One bank-level operation issued by the engine. -/
inductive Op where
  | erase (b : Bank)
  | wchunk (b : Bank) (pos : Nat) (d : List Nat)
deriving DecidableEq, Repr

/-- Effect of one bank-level operation on the bank contents (cursors untouched).
`erase` makes every byte of the bank the erased value `E`. -/
def applyOp (E : Nat) (s : TxState) : Op → TxState
  | Op.erase Bank.BANK0 => { s with bank0 := List.replicate s.bank0.length E }
  | Op.erase Bank.BANK1 => { s with bank1 := List.replicate s.bank1.length E }
  | Op.wchunk Bank.BANK0 p d => { s with bank0 := writeBytes s.bank0 p d }
  | Op.wchunk Bank.BANK1 p d => { s with bank1 := writeBytes s.bank1 p d }

/-- Effect of a sequence of bank-level operations, first to last. -/
def applyOps (E : Nat) (s : TxState) (ops : List Op) : TxState :=
  ops.foldl (applyOp E) s

/-- `TxFlash::fast_forward`, as a function of the scanned bank contents and the
current read position.  Returns `some (read_position, write_position)` on VALID,
`none` on INVALID.  The loop advances `read_position` by at least 3 bytes per
iteration, so `b.length + 1` units of fuel are always enough (proved below). -/
def ffAux (E : Nat) (b : List Nat) : Nat → Nat → Option (Nat × Nat)
  | 0, _ => none
  | fuel + 1, rp =>
    if remBytes b.length rp < 1 + sizeL + 1 then none
    else
      let L := readLE16 b (rp + 1)
      if remBytes b.length rp < 1 + sizeL + L + 1 then none
      else
        let wp := (rp + 1 + sizeL + L) % 65536
        let h := b.getD wp 0
        if h = E then some (rp, wp)
        else if h = recordByte E then ffAux E b fuel wp
        else none

/-- The fast-forward scan started at position 0, with sufficient fuel. -/
def fastForward (E : Nat) (b : List Nat) : Option (Nat × Nat) :=
  ffAux E b (b.length + 1) 0

/-- Packaging of a fast-forward outcome over a chosen bank into the result of
`TxFlash::parse` (scan state plus the cursors it leaves behind). -/
def scanOutcome (bk : Bank) : Option (Nat × Nat) → PState × Bank × Nat × Nat
  | some (rp, wp) => (PState.valid, bk, rp, wp)
  | none => (PState.invalid, bk, 0, 0)

/-- `TxFlash::parse`: read byte 0 of each bank and dispatch.  Returns the scan
state together with the bank and cursors selected (cursors are meaningful only
on VALID; on EMPTY and INVALID the caller re-initializes them). -/
def parse (E : Nat) (b0 b1 : List Nat) : PState × Bank × Nat × Nat :=
  let h0 := b0.getD 0 0
  let h1 := b1.getD 0 0
  if h0 = E ∧ h1 = E then (PState.empty, Bank.BANK0, 0, 0)
  else if h0 = E ∧ h1 = recordByte E then scanOutcome Bank.BANK1 (fastForward E b1)
  else if h0 = recordByte E ∧ h1 = E then scanOutcome Bank.BANK0 (fastForward E b0)
  else if h0 = recordByte E ∧ h1 = recordByte E then scanOutcome Bank.BANK1 (fastForward E b1)
  else (PState.invalid, Bank.BANK0, 0, 0)

/-- `TxFlash::length`: re-read the stored length at `m_read_position + 1`. -/
def lengthTx (s : TxState) : Nat :=
  readLE16 (bankData s s.read_bank) (s.read_position + 1)

/-- `TxFlash::read`: the `length()` payload bytes at `m_read_position + 1 + sizeL`. -/
def readTx (s : TxState) : List Nat :=
  readBytes (bankData s s.read_bank) (s.read_position + 1 + sizeL) (lengthTx s)

/-- Result of `TxFlash::write` (and of `reset`): the boolean return value, the
final engine state, and the trace of bank-level operations issued. -/
structure WriteResult where
  ok : Bool
  st : TxState
  ops : List Op
deriving DecidableEq, Repr

/-- `TxFlash::write`, with fuel bounding the recursion depth of the ping-pong
path.  The C++ recursion is at most two calls deep: the recursive call happens
only after the capacity check has passed, and then the freshly erased target
bank always takes the fast path; fuel 2 is therefore exact (see `writeTx`). -/
def writeFuel (E : Nat) : Nat → TxState → List Nat → Nat → WriteResult
  | 0, s, _, _ => ⟨false, s, []⟩
  | fuel + 1, s, payload, len =>
    if min (remBytes s.bank0.length 0) (remBytes s.bank1.length 0) < 1 + sizeL + len + 1 then
      ⟨false, s, []⟩
    else if 1 + sizeL + len + 1 ≤ remBytes (bankData s s.write_bank).length s.write_position then
      let ops := [Op.wchunk s.write_bank (s.write_position + 1) (le16 len),
                  Op.wchunk s.write_bank (s.write_position + 1 + sizeL) (payload.take len),
                  Op.wchunk s.write_bank s.write_position [recordByte E]]
      let s1 := applyOps E s ops
      ⟨true,
       { s1 with read_bank := s.write_bank, read_position := s.write_position,
                 write_position := (s.write_position + 1 + sizeL + len) % 65536 },
       ops⟩
    else
      match otherBank s.write_bank with
      | Bank.BANK1 =>
        let s1 := applyOp E { s with write_bank := Bank.BANK1, write_position := 0 }
          (Op.erase Bank.BANK1)
        let r := writeFuel E fuel s1 payload len
        ⟨r.ok, r.st, Op.erase Bank.BANK1 :: r.ops⟩
      | Bank.BANK0 =>
        let s1 := applyOp E { s with write_bank := Bank.BANK0, write_position := 0 }
          (Op.erase Bank.BANK0)
        let r := writeFuel E fuel s1 payload len
        if r.ok then
          ⟨r.ok, applyOp E r.st (Op.erase Bank.BANK1),
           Op.erase Bank.BANK0 :: r.ops ++ [Op.erase Bank.BANK1]⟩
        else ⟨r.ok, r.st, Op.erase Bank.BANK0 :: r.ops⟩

/-- `TxFlash::write` at its exact recursion depth. -/
def writeTx (E : Nat) (s : TxState) (payload : List Nat) (len : Nat) : WriteResult :=
  writeFuel E 2 s payload len

/-- The fast-path branch of `write` (record emitted at the current write cursor). -/
def fastResult (E : Nat) (s : TxState) (payload : List Nat) (len : Nat) : WriteResult :=
  let ops := [Op.wchunk s.write_bank (s.write_position + 1) (le16 len),
              Op.wchunk s.write_bank (s.write_position + 1 + sizeL) (payload.take len),
              Op.wchunk s.write_bank s.write_position [recordByte E]]
  ⟨true,
   { applyOps E s ops with read_bank := s.write_bank, read_position := s.write_position,
                           write_position := (s.write_position + 1 + sizeL + len) % 65536 },
   ops⟩

/-- `TxFlash::reset`: erase both banks, zero the cursors onto BANK0, then write
the default payload (the boolean result of that write is discarded by the C++;
it is kept in the trace result here). -/
def resetTx (E : Nat) (dflt : List Nat) (dlen : Nat) (s : TxState) : WriteResult :=
  let s1 := applyOps E s [Op.erase Bank.BANK0, Op.erase Bank.BANK1]
  let s2 := { s1 with read_bank := Bank.BANK0, write_bank := Bank.BANK0,
                      read_position := 0, write_position := 0 }
  let r := writeTx E s2 dflt dlen
  ⟨r.ok, r.st, Op.erase Bank.BANK0 :: Op.erase Bank.BANK1 :: r.ops⟩

/-- The `TxFlash` constructor over given bank contents: run `parse` and
dispatch as `TxFlash::initialize` does (VALID keeps the scanned cursors,
EMPTY writes the default payload, INVALID resets). -/
def engineInit (E : Nat) (dflt : List Nat) (dlen : Nat) (b0 b1 : List Nat) : TxState :=
  let s0 : TxState := ⟨b0, b1, Bank.BANK0, Bank.BANK0, 0, 0⟩
  match parse E b0 b1 with
  | (PState.valid, rb, rp, wp) =>
    { s0 with read_bank := rb, write_bank := rb, read_position := rp, write_position := wp }
  | (PState.empty, _, _, _) => (writeTx E s0 dflt dlen).st
  | (PState.invalid, _, _, _) => (resetTx E dflt dlen s0).st

/-- Does one operation, applied to the current bank contents, write only into
bytes that presently read as the erased value `E`?  (Erases vacuously do.) -/
def chunkErased (E : Nat) (s : TxState) : Op → Bool
  | Op.erase _ => true
  | Op.wchunk bk p d =>
    (List.range d.length).all fun i => (bankData s bk).getD (p + i) 0 == E

/-- Do all operations of a trace, each applied to the contents left by the
previous ones, write only into currently erased bytes? -/
def opsErasedOK (E : Nat) : TxState → List Op → Bool
  | _, [] => true
  | s, op :: rest => chunkErased E s op && opsErasedOK E (applyOp E s op) rest

/-- A bank is fully erased when every byte reads as `E`. -/
def bankAllE (E : Nat) (b : List Nat) : Bool :=
  b.all fun x => x == E

/-- The cursor invariant of the specification: either the read and write
cursors sit on the same bank with `write_position` just past the record at
`read_position` (whose stored length `length()` reads), or the active bank is
empty (byte 0 erased) and both positions are 0. -/
def CursorInv (E : Nat) (s : TxState) : Prop :=
  (s.read_bank = s.write_bank ∧
   s.write_position = s.read_position + 1 + sizeL + lengthTx s) ∨
  ((bankData s s.write_bank).getD 0 0 = E ∧ s.read_position = 0 ∧ s.write_position = 0)

/-- States reachable by crash-free operation: both cursors on the active bank,
whose contents scan to exactly those cursors, whose byte 0 is a RECORD header,
and whose bytes from `write_position` on are erased; the inactive bank is
byte-0-erased when Bank0 is active, and byte-0-erased or byte-0-RECORD (stale,
left deliberately by a Bank0-to-Bank1 migration) when Bank1 is active. -/
def Inv (E : Nat) (s : TxState) : Prop :=
  s.read_bank = s.write_bank ∧
  s.bank0.length < 65536 ∧ s.bank1.length < 65536 ∧
  (bankData s s.write_bank).getD 0 0 = recordByte E ∧
  fastForward E (bankData s s.write_bank) = some (s.read_position, s.write_position) ∧
  (∀ i, i < (bankData s s.write_bank).length → s.write_position ≤ i →
    (bankData s s.write_bank).getD i 0 = E) ∧
  (s.write_bank = Bank.BANK0 → s.bank1.getD 0 0 = E) ∧
  (s.write_bank = Bank.BANK1 →
    s.bank0.getD 0 0 = E ∨ s.bank0.getD 0 0 = recordByte E)

instance (E : Nat) (s : TxState) : Decidable (CursorInv E s) := by
  unfold CursorInv
  infer_instance

instance (E : Nat) (s : TxState) : Decidable (Inv E s) := by
  unfold Inv
  infer_instance

/-! ### Basic byte-array lemmas -/

theorem getD_map_range (f : Nat → Nat) (n i : Nat) :
    ((List.range n).map f).getD i 0 = if i < n then f i else 0 := by
  rw [List.getD_eq_getElem?_getD, List.getElem?_map]
  by_cases h : i < n
  · rw [List.getElem?_range h]
    simp [h]
  · rw [List.getElem?_eq_none (by simpa using Nat.le_of_not_lt h)]
    simp [h]

theorem getD_eq_zero_of_le {b : List Nat} {i : Nat} (h : b.length ≤ i) : b.getD i 0 = 0 := by
  rw [List.getD_eq_getElem?_getD, List.getElem?_eq_none h]
  rfl

theorem writeBytes_length (b : List Nat) (p : Nat) (d : List Nat) :
    (writeBytes b p d).length = b.length := by
  simp [writeBytes]

theorem writeBytes_getD (b : List Nat) (p : Nat) (d : List Nat) (i : Nat) :
    (writeBytes b p d).getD i 0 =
      if i < b.length then
        if p ≤ i ∧ i < p + d.length then d.getD (i - p) 0 else b.getD i 0
      else 0 := by
  rw [writeBytes, getD_map_range]

theorem writeBytes_getD_out (b : List Nat) (p : Nat) (d : List Nat) (i : Nat)
    (h : i < p ∨ p + d.length ≤ i) :
    (writeBytes b p d).getD i 0 = b.getD i 0 := by
  rw [writeBytes_getD]
  by_cases hi : i < b.length
  · simp only [hi, if_true]
    have : ¬(p ≤ i ∧ i < p + d.length) := by omega
    simp [this]
  · simp only [hi, if_false]
    exact (getD_eq_zero_of_le (Nat.le_of_not_lt hi)).symm

theorem writeBytes_getD_in (b : List Nat) (p : Nat) (d : List Nat) (i : Nat)
    (h1 : p ≤ i) (h2 : i < p + d.length) (h3 : i < b.length) :
    (writeBytes b p d).getD i 0 = d.getD (i - p) 0 := by
  rw [writeBytes_getD]
  simp [h1, h2, h3]

theorem replicate_getD (n x i : Nat) :
    (List.replicate n x).getD i 0 = if i < n then x else 0 := by
  rw [List.getD_eq_getElem?_getD, List.getElem?_replicate]
  by_cases h : i < n <;> simp [h]

theorem readBytes_congr (b b' : List Nat) (p n : Nat)
    (h : ∀ i, i < n → b'.getD (p + i) 0 = b.getD (p + i) 0) :
    readBytes b' p n = readBytes b p n := by
  unfold readBytes
  exact List.map_congr_left fun a ha => h a (List.mem_range.mp ha)

theorem map_getD_range_self (l : List Nat) :
    (List.range l.length).map (fun i => l.getD i 0) = l := by
  apply List.ext_getElem?
  intro n
  rw [List.getElem?_map]
  by_cases h : n < l.length
  · rw [List.getElem?_range h, List.getElem?_eq_getElem h]
    simp [List.getD_eq_getElem?_getD, List.getElem?_eq_getElem h]
  · rw [List.getElem?_eq_none (by simpa using Nat.le_of_not_lt h),
        List.getElem?_eq_none (Nat.le_of_not_lt h)]
    rfl

theorem readBytes_eq_of_getD (b : List Nat) (p : Nat) (pay : List Nat)
    (h : ∀ i, i < pay.length → b.getD (p + i) 0 = pay.getD i 0) :
    readBytes b p pay.length = pay := by
  unfold readBytes
  calc (List.range pay.length).map (fun i => b.getD (p + i) 0)
      = (List.range pay.length).map (fun i => pay.getD i 0) :=
        List.map_congr_left fun a ha => h a (List.mem_range.mp ha)
    _ = pay := map_getD_range_self pay

theorem remBytes_eq {len pos : Nat} (h1 : pos ≤ len) (h2 : len < 65536) :
    remBytes len pos = len - pos := by
  unfold remBytes
  omega

theorem recordByte_ne (E : Nat) : recordByte E ≠ E := by
  unfold recordByte
  omega

theorem le16_length (n : Nat) : (le16 n).length = 2 := rfl

/-! ### Fast-forward scan lemmas -/

theorem ffAux_succ (E : Nat) (b : List Nat) (fuel rp : Nat) :
    ffAux E b (fuel + 1) rp =
      if remBytes b.length rp < 1 + sizeL + 1 then none
      else if remBytes b.length rp < 1 + sizeL + readLE16 b (rp + 1) + 1 then none
      else if b.getD ((rp + 1 + sizeL + readLE16 b (rp + 1)) % 65536) 0 = E then
        some (rp, (rp + 1 + sizeL + readLE16 b (rp + 1)) % 65536)
      else if b.getD ((rp + 1 + sizeL + readLE16 b (rp + 1)) % 65536) 0 = recordByte E then
        ffAux E b fuel ((rp + 1 + sizeL + readLE16 b (rp + 1)) % 65536)
      else none := rfl

theorem ff_spec (E : Nat) (b : List Nat) (hlen : b.length < 65536) :
    ∀ fuel rp r w, rp ≤ b.length → ffAux E b fuel rp = some (r, w) →
      rp ≤ r ∧ w = r + 1 + sizeL + readLE16 b (r + 1) ∧ w + 1 ≤ b.length ∧ b.getD w 0 = E := by
  intro fuel
  induction fuel with
  | zero => intro rp r w _ h; simp [ffAux] at h
  | succ fuel ih =>
    intro rp r w hrp h
    rw [ffAux_succ] at h
    by_cases c1 : remBytes b.length rp < 1 + sizeL + 1
    · simp [c1] at h
    rw [if_neg c1] at h
    by_cases c2 : remBytes b.length rp < 1 + sizeL + readLE16 b (rp + 1) + 1
    · simp [c2] at h
    rw [if_neg c2] at h
    rw [remBytes_eq hrp hlen] at c1 c2
    have hwp : (rp + 1 + sizeL + readLE16 b (rp + 1)) % 65536
        = rp + 1 + sizeL + readLE16 b (rp + 1) := Nat.mod_eq_of_lt (by omega)
    rw [hwp] at h
    by_cases c3 : b.getD (rp + 1 + sizeL + readLE16 b (rp + 1)) 0 = E
    · rw [if_pos c3] at h
      obtain ⟨hr, hw⟩ := Prod.mk.injEq .. ▸ (Option.some.injEq .. ▸ h)
      subst hr
      subst hw
      exact ⟨le_refl _, rfl, by omega, c3⟩
    rw [if_neg c3] at h
    by_cases c4 : b.getD (rp + 1 + sizeL + readLE16 b (rp + 1)) 0 = recordByte E
    · rw [if_pos c4] at h
      have hrec := ih (rp + 1 + sizeL + readLE16 b (rp + 1)) r w (by omega) h
      exact ⟨by omega, hrec.2.1, hrec.2.2.1, hrec.2.2.2⟩
    · rw [if_neg c4] at h
      exact absurd h (by simp)

theorem ff_agree (E : Nat) (b b' : List Nat) (hlen : b.length < 65536)
    (hlen' : b'.length = b.length) :
    ∀ fuel rp r w, rp ≤ b.length → ffAux E b fuel rp = some (r, w) →
      (∀ i, i ≤ w → b'.getD i 0 = b.getD i 0) →
      ffAux E b' fuel rp = some (r, w) := by
  intro fuel
  induction fuel with
  | zero => intro rp r w _ h _; simp [ffAux] at h
  | succ fuel ih =>
    intro rp r w hrp h hag
    have hsz : sizeL = 2 := rfl
    obtain ⟨hsp1, hsp2, hsp3, hsp4⟩ := ff_spec E b hlen (fuel + 1) rp r w hrp h
    rw [ffAux_succ] at h ⊢
    rw [hlen']
    by_cases c1 : remBytes b.length rp < 1 + sizeL + 1
    · simp [c1] at h
    rw [if_neg c1] at h ⊢
    by_cases c2 : remBytes b.length rp < 1 + sizeL + readLE16 b (rp + 1) + 1
    · simp [c2] at h
    rw [if_neg c2] at h
    have hrem := remBytes_eq hrp hlen
    have hL' : readLE16 b' (rp + 1) = readLE16 b (rp + 1) := by
      unfold readLE16
      rw [hag (rp + 1) (by omega), hag (rp + 1 + 1) (by omega)]
    rw [hL', if_neg c2]
    have hwp : (rp + 1 + sizeL + readLE16 b (rp + 1)) % 65536
        = rp + 1 + sizeL + readLE16 b (rp + 1) := Nat.mod_eq_of_lt (by omega)
    rw [hwp] at h ⊢
    by_cases c3 : b.getD (rp + 1 + sizeL + readLE16 b (rp + 1)) 0 = E
    · rw [if_pos c3] at h
      have hinj : rp = r ∧ rp + 1 + sizeL + readLE16 b (rp + 1) = w := by
        simpa using h
      rw [hag _ (le_of_eq hinj.2), if_pos c3]
      exact h
    rw [if_neg c3] at h
    by_cases c4 : b.getD (rp + 1 + sizeL + readLE16 b (rp + 1)) 0 = recordByte E
    · rw [if_pos c4] at h
      obtain ⟨hs1, hs2, hs3, hs4⟩ := ff_spec E b hlen fuel
        (rp + 1 + sizeL + readLE16 b (rp + 1)) r w (by omega) h
      have hle : rp + 1 + sizeL + readLE16 b (rp + 1) ≤ w := by omega
      rw [hag _ hle, if_neg c3, if_pos c4]
      exact ih (rp + 1 + sizeL + readLE16 b (rp + 1)) r w (by omega) h hag
    · rw [if_neg c4] at h
      exact absurd h (by simp)

theorem ff_mono (E : Nat) (b : List Nat) :
    ∀ fuel rp x, ffAux E b fuel rp = some x → ffAux E b (fuel + 1) rp = some x := by
  intro fuel
  induction fuel with
  | zero => intro rp x h; simp [ffAux] at h
  | succ fuel ih =>
    intro rp x h
    rw [ffAux_succ] at h
    rw [ffAux_succ]
    by_cases c1 : remBytes b.length rp < 1 + sizeL + 1
    · simp [c1] at h
    rw [if_neg c1] at h ⊢
    by_cases c2 : remBytes b.length rp < 1 + sizeL + readLE16 b (rp + 1) + 1
    · simp [c2] at h
    rw [if_neg c2] at h ⊢
    by_cases c3 : b.getD ((rp + 1 + sizeL + readLE16 b (rp + 1)) % 65536) 0 = E
    · rwa [if_pos c3] at h ⊢
    rw [if_neg c3] at h ⊢
    by_cases c4 : b.getD ((rp + 1 + sizeL + readLE16 b (rp + 1)) % 65536) 0 = recordByte E
    · rw [if_pos c4] at h ⊢
      exact ih _ _ h
    · rw [if_neg c4] at h
      exact absurd h (by simp)

theorem ff_fuel_le (E : Nat) (b : List Nat) {m n : Nat} (hmn : m ≤ n) :
    ∀ rp x, ffAux E b m rp = some x → ffAux E b n rp = some x := by
  induction hmn with
  | refl => intro rp x h; exact h
  | step _ ih => intro rp x h; exact ff_mono E b _ rp x (ih rp x h)

theorem ff_needs (E : Nat) (b : List Nat) (hlen : b.length < 65536) :
    ∀ fuel rp x, rp ≤ b.length → ffAux E b fuel rp = some x →
      ffAux E b (b.length - rp) rp = some x := by
  intro fuel
  induction fuel with
  | zero => intro rp x _ h; simp [ffAux] at h
  | succ fuel ih =>
    intro rp x hrp h
    have hsz : sizeL = 2 := rfl
    rw [ffAux_succ] at h
    by_cases c1 : remBytes b.length rp < 1 + sizeL + 1
    · simp [c1] at h
    rw [if_neg c1] at h
    by_cases c2 : remBytes b.length rp < 1 + sizeL + readLE16 b (rp + 1) + 1
    · simp [c2] at h
    rw [if_neg c2] at h
    rw [remBytes_eq hrp hlen] at c1 c2
    obtain ⟨k, hk⟩ : ∃ k, b.length - rp = k + 1 := ⟨b.length - rp - 1, by omega⟩
    rw [hk, ffAux_succ, remBytes_eq hrp hlen, if_neg (by omega), if_neg (by omega)]
    by_cases c3 : b.getD ((rp + 1 + sizeL + readLE16 b (rp + 1)) % 65536) 0 = E
    · rwa [if_pos c3] at h ⊢
    rw [if_neg c3] at h ⊢
    by_cases c4 : b.getD ((rp + 1 + sizeL + readLE16 b (rp + 1)) % 65536) 0 = recordByte E
    · rw [if_pos c4] at h ⊢
      have hwp : (rp + 1 + sizeL + readLE16 b (rp + 1)) % 65536
          = rp + 1 + sizeL + readLE16 b (rp + 1) := Nat.mod_eq_of_lt (by omega)
      rw [hwp] at h ⊢
      have hrec := ih (rp + 1 + sizeL + readLE16 b (rp + 1)) x (by omega) h
      exact ff_fuel_le E b (by omega) _ x hrec
    · rw [if_neg c4] at h
      exact absurd h (by simp)

theorem ff_extend (E : Nat) (b b'' : List Nat) (hlen : b.length < 65536)
    (hlen'' : b''.length = b.length) (L w0 : Nat)
    (hb2 : ∀ i, i < w0 → b''.getD i 0 = b.getD i 0)
    (hw : b''.getD w0 0 = recordByte E)
    (hL : readLE16 b'' (w0 + 1) = L)
    (hfit : w0 + 1 + sizeL + L + 1 ≤ b.length)
    (hterm : b''.getD (w0 + 1 + sizeL + L) 0 = E) :
    ∀ fuel rp r, rp ≤ b.length → ffAux E b fuel rp = some (r, w0) →
      ffAux E b'' (fuel + 1) rp = some (w0, w0 + 1 + sizeL + L) := by
  intro fuel
  induction fuel with
  | zero => intro rp r _ h; simp [ffAux] at h
  | succ fuel ih =>
    intro rp r hrp h
    have hsz : sizeL = 2 := rfl
    obtain ⟨hsp1, hsp2, hsp3, hsp4⟩ := ff_spec E b hlen (fuel + 1) rp r w0 hrp h
    rw [ffAux_succ] at h
    by_cases c1 : remBytes b.length rp < 1 + sizeL + 1
    · simp [c1] at h
    rw [if_neg c1] at h
    by_cases c2 : remBytes b.length rp < 1 + sizeL + readLE16 b (rp + 1) + 1
    · simp [c2] at h
    rw [if_neg c2] at h
    rw [remBytes_eq hrp hlen] at c1 c2
    have hL' : readLE16 b'' (rp + 1) = readLE16 b (rp + 1) := by
      unfold readLE16
      rw [hb2 (rp + 1) (by omega), hb2 (rp + 1 + 1) (by omega)]
    have hwp : (rp + 1 + sizeL + readLE16 b (rp + 1)) % 65536
        = rp + 1 + sizeL + readLE16 b (rp + 1) := Nat.mod_eq_of_lt (by omega)
    rw [hwp] at h
    rw [ffAux_succ, hlen'', remBytes_eq hrp hlen, if_neg (by omega), hL',
        if_neg (by omega), hwp]
    by_cases c3 : b.getD (rp + 1 + sizeL + readLE16 b (rp + 1)) 0 = E
    · rw [if_pos c3] at h
      have hinj : rp = r ∧ rp + 1 + sizeL + readLE16 b (rp + 1) = w0 := by
        simpa using h
      rw [hinj.2, hw, if_neg (Ne.symm (recordByte_ne E) ∘ Eq.symm), if_pos rfl]
      obtain ⟨k, hk⟩ : ∃ k, fuel + 1 = k + 1 := ⟨fuel, rfl⟩
      rw [ffAux_succ, hlen'', remBytes_eq (by omega) hlen, if_neg (by omega), hL,
          if_neg (by omega)]
      have hwp2 : (w0 + 1 + sizeL + L) % 65536 = w0 + 1 + sizeL + L :=
        Nat.mod_eq_of_lt (by omega)
      rw [hwp2, hterm, if_pos rfl]
    rw [if_neg c3] at h
    by_cases c4 : b.getD (rp + 1 + sizeL + readLE16 b (rp + 1)) 0 = recordByte E
    · rw [if_pos c4] at h
      obtain ⟨hq1, hq2, hq3, hq4⟩ := ff_spec E b hlen fuel
        (rp + 1 + sizeL + readLE16 b (rp + 1)) r w0 (by omega) h
      have hlt : rp + 1 + sizeL + readLE16 b (rp + 1) < w0 := by omega
      rw [hb2 _ hlt, if_neg c3, if_pos c4]
      exact ih (rp + 1 + sizeL + readLE16 b (rp + 1)) r (by omega) h
    · rw [if_neg c4] at h
      exact absurd h (by simp)

theorem fastForward_agree (E : Nat) (b b' : List Nat) (hlen : b.length < 65536)
    (hlen' : b'.length = b.length) (r w : Nat)
    (h : fastForward E b = some (r, w))
    (hag : ∀ i, i ≤ w → b'.getD i 0 = b.getD i 0) :
    fastForward E b' = some (r, w) := by
  unfold fastForward at h ⊢
  rw [hlen']
  exact ff_agree E b b' hlen hlen' (b.length + 1) 0 r w (Nat.zero_le _) h hag

theorem fastForward_extend (E : Nat) (b b'' : List Nat) (hlen : b.length < 65536)
    (hlen'' : b''.length = b.length) (L w0 r : Nat)
    (h : fastForward E b = some (r, w0))
    (hb2 : ∀ i, i < w0 → b''.getD i 0 = b.getD i 0)
    (hw : b''.getD w0 0 = recordByte E)
    (hL : readLE16 b'' (w0 + 1) = L)
    (hfit : w0 + 1 + sizeL + L + 1 ≤ b.length)
    (hterm : b''.getD (w0 + 1 + sizeL + L) 0 = E) :
    fastForward E b'' = some (w0, w0 + 1 + sizeL + L) := by
  have h1 : ffAux E b b.length 0 = some (r, w0) := by
    have := ff_needs E b hlen (b.length + 1) 0 (r, w0) (Nat.zero_le _) h
    simpa using this
  unfold fastForward
  rw [hlen'']
  exact ff_extend E b b'' hlen hlen'' L w0 hb2 hw hL hfit hterm b.length 0 r
    (Nat.zero_le _) h1

theorem ff_single (E : Nat) (b'' : List Nat) (L : Nat)
    (hlen : b''.length < 65536) (hfit : 1 + sizeL + L + 1 ≤ b''.length)
    (hL : readLE16 b'' (0 + 1) = L)
    (hterm : b''.getD (0 + 1 + sizeL + L) 0 = E) :
    fastForward E b'' = some (0, 0 + 1 + sizeL + L) := by
  have hsz : sizeL = 2 := rfl
  unfold fastForward
  obtain ⟨k, hk⟩ : ∃ k, b''.length + 1 = k + 1 := ⟨b''.length, rfl⟩
  rw [hk, ffAux_succ, remBytes_eq (Nat.zero_le _) hlen, hL, if_neg (by omega),
      if_neg (by omega), Nat.mod_eq_of_lt (by omega), hterm, if_pos rfl]

/-! ### Parse and construction helpers -/

theorem parse_empty (E : Nat) (b0 b1 : List Nat)
    (h0 : b0.getD 0 0 = E) (h1 : b1.getD 0 0 = E) :
    parse E b0 b1 = (PState.empty, Bank.BANK0, 0, 0) := by
  unfold parse
  rw [if_pos ⟨h0, h1⟩]

theorem parse_sel0 (E : Nat) (b0 b1 : List Nat)
    (h0 : b0.getD 0 0 = recordByte E) (h1 : b1.getD 0 0 = E) :
    parse E b0 b1 = scanOutcome Bank.BANK0 (fastForward E b0) := by
  unfold parse
  rw [if_neg fun hc => recordByte_ne E (h0.symm.trans hc.1),
      if_neg fun hc => recordByte_ne E (h0.symm.trans hc.1),
      if_pos ⟨h0, h1⟩]

theorem parse_sel1 (E : Nat) (b0 b1 : List Nat)
    (h0 : b0.getD 0 0 = E) (h1 : b1.getD 0 0 = recordByte E) :
    parse E b0 b1 = scanOutcome Bank.BANK1 (fastForward E b1) := by
  unfold parse
  rw [if_neg fun hc => recordByte_ne E (h1.symm.trans hc.2),
      if_pos ⟨h0, h1⟩]

theorem parse_sel11 (E : Nat) (b0 b1 : List Nat)
    (h0 : b0.getD 0 0 = recordByte E) (h1 : b1.getD 0 0 = recordByte E) :
    parse E b0 b1 = scanOutcome Bank.BANK1 (fastForward E b1) := by
  unfold parse
  rw [if_neg fun hc => recordByte_ne E (h0.symm.trans hc.1),
      if_neg fun hc => recordByte_ne E (h0.symm.trans hc.1),
      if_neg fun hc => recordByte_ne E (h1.symm.trans hc.2),
      if_pos ⟨h0, h1⟩]

theorem parse_other (E : Nat) (b0 b1 : List Nat)
    (h : (b0.getD 0 0 ≠ E ∧ b0.getD 0 0 ≠ recordByte E) ∨
         (b1.getD 0 0 ≠ E ∧ b1.getD 0 0 ≠ recordByte E)) :
    (parse E b0 b1).1 = PState.invalid := by
  unfold parse
  rcases h with ⟨ha, hb⟩ | ⟨ha, hb⟩
  · rw [if_neg (by tauto), if_neg (by tauto), if_neg (by tauto), if_neg (by tauto)]
  · rw [if_neg (by tauto), if_neg (by tauto)]
    by_cases c : b0.getD 0 0 = recordByte E ∧ b1.getD 0 0 = E
    · exact absurd c.2 ha
    rw [if_neg c, if_neg (by tauto)]

theorem engineInit_valid (E : Nat) (dflt : List Nat) (dlen : Nat) (b0 b1 : List Nat)
    (bk : Bank) (rp wp : Nat)
    (h : parse E b0 b1 = (PState.valid, bk, rp, wp)) :
    engineInit E dflt dlen b0 b1 = ⟨b0, b1, bk, bk, rp, wp⟩ := by
  unfold engineInit
  rw [h]

/-! ### Write-path helpers -/

theorem writeFuel_succ (E : Nat) (fuel : Nat) (s : TxState) (payload : List Nat) (len : Nat) :
    writeFuel E (fuel + 1) s payload len =
      if min (remBytes s.bank0.length 0) (remBytes s.bank1.length 0) < 1 + sizeL + len + 1 then
        ⟨false, s, []⟩
      else if 1 + sizeL + len + 1 ≤ remBytes (bankData s s.write_bank).length s.write_position then
        fastResult E s payload len
      else
        match otherBank s.write_bank with
        | Bank.BANK1 =>
          let s1 := applyOp E { s with write_bank := Bank.BANK1, write_position := 0 }
            (Op.erase Bank.BANK1)
          let r := writeFuel E fuel s1 payload len
          ⟨r.ok, r.st, Op.erase Bank.BANK1 :: r.ops⟩
        | Bank.BANK0 =>
          let s1 := applyOp E { s with write_bank := Bank.BANK0, write_position := 0 }
            (Op.erase Bank.BANK0)
          let r := writeFuel E fuel s1 payload len
          if r.ok then
            ⟨r.ok, applyOp E r.st (Op.erase Bank.BANK1),
             Op.erase Bank.BANK0 :: r.ops ++ [Op.erase Bank.BANK1]⟩
          else ⟨r.ok, r.st, Op.erase Bank.BANK0 :: r.ops⟩ := rfl

theorem writeFuel_fail (E : Nat) (fuel : Nat) (s : TxState) (payload : List Nat) (len : Nat)
    (h : min (remBytes s.bank0.length 0) (remBytes s.bank1.length 0) < 1 + sizeL + len + 1) :
    writeFuel E (fuel + 1) s payload len = ⟨false, s, []⟩ := by
  rw [writeFuel_succ, if_pos h]

theorem writeFuel_fast (E : Nat) (fuel : Nat) (s : TxState) (payload : List Nat) (len : Nat)
    (h1 : ¬ min (remBytes s.bank0.length 0) (remBytes s.bank1.length 0) < 1 + sizeL + len + 1)
    (h2 : 1 + sizeL + len + 1 ≤ remBytes (bankData s s.write_bank).length s.write_position) :
    writeFuel E (fuel + 1) s payload len = fastResult E s payload len := by
  rw [writeFuel_succ, if_neg h1, if_pos h2]

theorem writeFuel_toB1 (E : Nat) (fuel : Nat) (s : TxState) (payload : List Nat) (len : Nat)
    (h1 : ¬ min (remBytes s.bank0.length 0) (remBytes s.bank1.length 0) < 1 + sizeL + len + 1)
    (h2 : ¬ 1 + sizeL + len + 1 ≤ remBytes (bankData s s.write_bank).length s.write_position)
    (hwb : s.write_bank = Bank.BANK0) :
    writeFuel E (fuel + 1) s payload len =
      ⟨(writeFuel E fuel { s with write_bank := Bank.BANK1, write_position := 0,
                                  bank1 := List.replicate s.bank1.length E } payload len).ok,
       (writeFuel E fuel { s with write_bank := Bank.BANK1, write_position := 0,
                                  bank1 := List.replicate s.bank1.length E } payload len).st,
       Op.erase Bank.BANK1 ::
         (writeFuel E fuel { s with write_bank := Bank.BANK1, write_position := 0,
                                    bank1 := List.replicate s.bank1.length E } payload len).ops⟩ := by
  rw [writeFuel_succ, if_neg h1, if_neg h2, hwb]
  rfl

theorem writeFuel_toB0 (E : Nat) (fuel : Nat) (s : TxState) (payload : List Nat) (len : Nat)
    (h1 : ¬ min (remBytes s.bank0.length 0) (remBytes s.bank1.length 0) < 1 + sizeL + len + 1)
    (h2 : ¬ 1 + sizeL + len + 1 ≤ remBytes (bankData s s.write_bank).length s.write_position)
    (hwb : s.write_bank = Bank.BANK1) :
    writeFuel E (fuel + 1) s payload len =
      (if (writeFuel E fuel { s with write_bank := Bank.BANK0, write_position := 0,
                                     bank0 := List.replicate s.bank0.length E } payload len).ok then
        ⟨(writeFuel E fuel { s with write_bank := Bank.BANK0, write_position := 0,
                                    bank0 := List.replicate s.bank0.length E } payload len).ok,
         applyOp E (writeFuel E fuel { s with write_bank := Bank.BANK0, write_position := 0,
                                              bank0 := List.replicate s.bank0.length E } payload len).st
           (Op.erase Bank.BANK1),
         Op.erase Bank.BANK0 ::
           (writeFuel E fuel { s with write_bank := Bank.BANK0, write_position := 0,
                                      bank0 := List.replicate s.bank0.length E } payload len).ops
           ++ [Op.erase Bank.BANK1]⟩
      else
        ⟨(writeFuel E fuel { s with write_bank := Bank.BANK0, write_position := 0,
                                    bank0 := List.replicate s.bank0.length E } payload len).ok,
         (writeFuel E fuel { s with write_bank := Bank.BANK0, write_position := 0,
                                    bank0 := List.replicate s.bank0.length E } payload len).st,
         Op.erase Bank.BANK0 ::
           (writeFuel E fuel { s with write_bank := Bank.BANK0, write_position := 0,
                                      bank0 := List.replicate s.bank0.length E } payload len).ops⟩) := by
  rw [writeFuel_succ, if_neg h1, if_neg h2, hwb]
  rfl

/-! ### Contents of a bank after the three fast-path chunk writes -/

theorem take_getD (l : List Nat) (n i : Nat) (h : i < n) :
    (l.take n).getD i 0 = l.getD i 0 := by
  rw [List.getD_eq_getElem?_getD, List.getD_eq_getElem?_getD, List.getElem?_take, if_pos h]

theorem fastImage_length (E : Nat) (b : List Nat) (wp L : Nat) (pay : List Nat) :
    (writeBytes (writeBytes (writeBytes b (wp + 1) (le16 L)) (wp + 1 + sizeL) (pay.take L))
      wp [recordByte E]).length = b.length := by
  simp [writeBytes_length]

theorem fastImage_getD_lt (E : Nat) (b : List Nat) (wp L : Nat) (pay : List Nat)
    (i : Nat) (hi : i < wp) :
    (writeBytes (writeBytes (writeBytes b (wp + 1) (le16 L)) (wp + 1 + sizeL) (pay.take L))
      wp [recordByte E]).getD i 0 = b.getD i 0 := by
  rw [writeBytes_getD_out _ _ _ _ (Or.inl hi),
      writeBytes_getD_out _ _ _ _ (Or.inl (by omega)),
      writeBytes_getD_out _ _ _ _ (Or.inl (by omega))]

theorem fastImage_getD_wp (E : Nat) (b : List Nat) (wp L : Nat) (pay : List Nat)
    (hwp : wp < b.length) :
    (writeBytes (writeBytes (writeBytes b (wp + 1) (le16 L)) (wp + 1 + sizeL) (pay.take L))
      wp [recordByte E]).getD wp 0 = recordByte E := by
  rw [writeBytes_getD_in _ _ _ _ (le_refl wp) (by simp) (by simp [writeBytes_length, hwp])]
  simp

theorem fastImage_le16 (E : Nat) (b : List Nat) (wp L : Nat) (pay : List Nat)
    (hL : L < 65536) (hfit : wp + 1 + sizeL + 1 ≤ b.length) :
    readLE16 (writeBytes (writeBytes (writeBytes b (wp + 1) (le16 L)) (wp + 1 + sizeL)
      (pay.take L)) wp [recordByte E]) (wp + 1) = L := by
  have hsz : sizeL = 2 := rfl
  unfold readLE16
  rw [writeBytes_getD_out _ _ _ _ (Or.inr (by simp)),
      writeBytes_getD_out _ _ _ _ (Or.inl (by omega)),
      writeBytes_getD_in _ _ _ _ (by omega) (by rw [le16_length]; omega) (by omega),
      writeBytes_getD_out _ _ _ _ (Or.inr (by simp)),
      writeBytes_getD_out _ _ _ _ (Or.inl (by omega)),
      writeBytes_getD_in _ _ _ _ (by omega) (by rw [le16_length]; omega) (by omega)]
  have e1 : wp + 1 - (wp + 1) = 0 := by omega
  have e2 : wp + 1 + 1 - (wp + 1) = 1 := by omega
  rw [e1, e2]
  show L % 256 + 256 * (L / 256 % 256) = L
  omega

theorem fastImage_getD_pay (E : Nat) (b : List Nat) (wp L : Nat) (pay : List Nat)
    (i : Nat) (hi : i < L) (hpay : L ≤ pay.length)
    (hfit : wp + 1 + sizeL + L + 1 ≤ b.length) :
    (writeBytes (writeBytes (writeBytes b (wp + 1) (le16 L)) (wp + 1 + sizeL) (pay.take L))
      wp [recordByte E]).getD (wp + 1 + sizeL + i) 0 = pay.getD i 0 := by
  have hsz : sizeL = 2 := rfl
  have htk : (pay.take L).length = L := by
    rw [List.length_take]
    omega
  rw [writeBytes_getD_out _ _ _ _ (Or.inr (by simp; omega)),
      writeBytes_getD_in _ _ _ _ (by omega) (by rw [htk]; omega)
        (by rw [writeBytes_length]; omega)]
  have e1 : wp + 1 + sizeL + i - (wp + 1 + sizeL) = i := by omega
  rw [e1]
  exact take_getD pay L i hi

theorem fastImage_getD_gt (E : Nat) (b : List Nat) (wp L : Nat) (pay : List Nat)
    (i : Nat) (hi : wp + 1 + sizeL + L ≤ i) (hpay : L ≤ pay.length) :
    (writeBytes (writeBytes (writeBytes b (wp + 1) (le16 L)) (wp + 1 + sizeL) (pay.take L))
      wp [recordByte E]).getD i 0 = b.getD i 0 := by
  have hsz : sizeL = 2 := rfl
  have htk : (pay.take L).length = L := by
    rw [List.length_take]
    omega
  rw [writeBytes_getD_out _ _ _ _ (Or.inr (by simp; omega)),
      writeBytes_getD_out _ _ _ _ (Or.inr (by rw [htk]; omega)),
      writeBytes_getD_out _ _ _ _ (Or.inr (by simp [le16]; omega))]

theorem partialImage1_getD (b : List Nat) (wp L : Nat) (i : Nat) (hi : i ≤ wp) :
    (writeBytes b (wp + 1) (le16 L)).getD i 0 = b.getD i 0 :=
  writeBytes_getD_out _ _ _ _ (Or.inl (by omega))

theorem partialImage2_getD (b : List Nat) (wp L : Nat) (pay : List Nat) (i : Nat)
    (hi : i ≤ wp) :
    (writeBytes (writeBytes b (wp + 1) (le16 L)) (wp + 1 + sizeL) (pay.take L)).getD i 0
      = b.getD i 0 := by
  rw [writeBytes_getD_out _ _ _ _ (Or.inl (by omega)),
      writeBytes_getD_out _ _ _ _ (Or.inl (by omega))]

theorem engineInit_empty (E : Nat) (dflt : List Nat) (dlen : Nat) (b0 b1 : List Nat)
    (h0 : b0.getD 0 0 = E) (h1 : b1.getD 0 0 = E) :
    engineInit E dflt dlen b0 b1 =
      (writeTx E ⟨b0, b1, Bank.BANK0, Bank.BANK0, 0, 0⟩ dflt dlen).st := by
  unfold engineInit
  rw [parse_empty E b0 b1 h0 h1]

theorem engineInit_invalid (E : Nat) (dflt : List Nat) (dlen : Nat) (b0 b1 : List Nat)
    (h : (parse E b0 b1).1 = PState.invalid) :
    engineInit E dflt dlen b0 b1 =
      (resetTx E dflt dlen ⟨b0, b1, Bank.BANK0, Bank.BANK0, 0, 0⟩).st := by
  unfold engineInit
  rcases hpr : parse E b0 b1 with ⟨p, bk, rp, wp⟩
  rw [hpr] at h
  simp at h
  subst h
  rfl

theorem fastResult_ok (E : Nat) (s : TxState) (payload : List Nat) (len : Nat) :
    (fastResult E s payload len).ok = true := rfl

theorem fastResult_ops (E : Nat) (s : TxState) (payload : List Nat) (len : Nat) :
    (fastResult E s payload len).ops =
      [Op.wchunk s.write_bank (s.write_position + 1) (le16 len),
       Op.wchunk s.write_bank (s.write_position + 1 + sizeL) (payload.take len),
       Op.wchunk s.write_bank s.write_position [recordByte E]] := rfl

theorem fastResult_read_bank (E : Nat) (s : TxState) (payload : List Nat) (len : Nat) :
    (fastResult E s payload len).st.read_bank = s.write_bank := rfl

theorem fastResult_read_position (E : Nat) (s : TxState) (payload : List Nat) (len : Nat) :
    (fastResult E s payload len).st.read_position = s.write_position := rfl

theorem fastResult_write_position (E : Nat) (s : TxState) (payload : List Nat) (len : Nat) :
    (fastResult E s payload len).st.write_position
      = (s.write_position + 1 + sizeL + len) % 65536 := rfl

theorem fastResult_write_bank (E : Nat) (s : TxState) (payload : List Nat) (len : Nat) :
    (fastResult E s payload len).st.write_bank = s.write_bank := by
  cases hwb : s.write_bank <;>
    simp [fastResult, hwb, applyOps, applyOp]

theorem fastResult_active (E : Nat) (s : TxState) (payload : List Nat) (len : Nat) :
    bankData (fastResult E s payload len).st s.write_bank =
      writeBytes (writeBytes (writeBytes (bankData s s.write_bank)
        (s.write_position + 1) (le16 len))
        (s.write_position + 1 + sizeL) (payload.take len))
        s.write_position [recordByte E] := by
  cases hwb : s.write_bank <;>
    simp [fastResult, hwb, applyOps, applyOp, bankData]

theorem fastResult_other (E : Nat) (s : TxState) (payload : List Nat) (len : Nat) :
    bankData (fastResult E s payload len).st (otherBank s.write_bank)
      = bankData s (otherBank s.write_bank) := by
  cases hwb : s.write_bank <;>
    simp [fastResult, hwb, applyOps, applyOp, bankData, otherBank]

theorem wr_st_mk (a : Bool) (b : TxState) (c : List Op) :
    (⟨a, b, c⟩ : WriteResult).st = b := rfl

theorem wr_ok_mk (a : Bool) (b : TxState) (c : List Op) :
    (⟨a, b, c⟩ : WriteResult).ok = a := rfl

theorem wr_ops_mk (a : Bool) (b : TxState) (c : List Op) :
    (⟨a, b, c⟩ : WriteResult).ops = c := rfl

/-- The three shapes a capacity-passing `write` can take: fast path in the
active bank, migration to Bank1, or migration to Bank0 followed by the scrub
of Bank1. -/
theorem writeTx_cases (E : Nat) (s : TxState) (payload : List Nat) (len : Nat)
    (hcap : ¬ min (remBytes s.bank0.length 0) (remBytes s.bank1.length 0)
      < 1 + sizeL + len + 1) :
    (1 + sizeL + len + 1 ≤ remBytes (bankData s s.write_bank).length s.write_position ∧
      writeTx E s payload len = fastResult E s payload len) ∨
    (¬ 1 + sizeL + len + 1 ≤ remBytes (bankData s s.write_bank).length s.write_position ∧
      s.write_bank = Bank.BANK0 ∧
      writeTx E s payload len =
        ⟨true,
         (fastResult E { s with write_bank := Bank.BANK1, write_position := 0,
                                bank1 := List.replicate s.bank1.length E } payload len).st,
         Op.erase Bank.BANK1 ::
           (fastResult E { s with write_bank := Bank.BANK1, write_position := 0,
                                  bank1 := List.replicate s.bank1.length E } payload len).ops⟩) ∨
    (¬ 1 + sizeL + len + 1 ≤ remBytes (bankData s s.write_bank).length s.write_position ∧
      s.write_bank = Bank.BANK1 ∧
      writeTx E s payload len =
        ⟨true,
         applyOp E (fastResult E { s with write_bank := Bank.BANK0, write_position := 0,
                                          bank0 := List.replicate s.bank0.length E }
           payload len).st (Op.erase Bank.BANK1),
         Op.erase Bank.BANK0 ::
           (fastResult E { s with write_bank := Bank.BANK0, write_position := 0,
                                  bank0 := List.replicate s.bank0.length E } payload len).ops
           ++ [Op.erase Bank.BANK1]⟩) := by
  by_cases hfast : 1 + sizeL + len + 1
      ≤ remBytes (bankData s s.write_bank).length s.write_position
  · exact Or.inl ⟨hfast, writeFuel_fast E 1 s payload len hcap hfast⟩
  · rcases hwb : s.write_bank with _ | _
    · have h1 := writeFuel_toB1 E 1 s payload len hcap hfast hwb
      have hr : writeFuel E 1
          { s with write_bank := Bank.BANK1, write_position := 0,
                   bank1 := List.replicate s.bank1.length E } payload len
          = fastResult E
          { s with write_bank := Bank.BANK1, write_position := 0,
                   bank1 := List.replicate s.bank1.length E } payload len := by
        apply writeFuel_fast E 0
        · simpa [List.length_replicate] using hcap
        · simp only [bankData, List.length_replicate]
          omega
      refine Or.inr (Or.inl ⟨by rw [hwb] at hfast; exact hfast, rfl, ?_⟩)
      rw [show writeTx E s payload len = writeFuel E 2 s payload len from rfl, h1, hr]
      rfl
    · have h1 := writeFuel_toB0 E 1 s payload len hcap hfast hwb
      have hr : writeFuel E 1
          { s with write_bank := Bank.BANK0, write_position := 0,
                   bank0 := List.replicate s.bank0.length E } payload len
          = fastResult E
          { s with write_bank := Bank.BANK0, write_position := 0,
                   bank0 := List.replicate s.bank0.length E } payload len := by
        apply writeFuel_fast E 0
        · simpa [List.length_replicate] using hcap
        · simp only [bankData, List.length_replicate]
          omega
      refine Or.inr (Or.inr ⟨by rw [hwb] at hfast; exact hfast, rfl, ?_⟩)
      rw [show writeTx E s payload len = writeFuel E 2 s payload len from rfl, h1, hr,
          if_pos (fastResult_ok E _ payload len)]
      rfl

theorem bankAllE_getD0 (E : Nat) (b : List Nat) (hb : bankAllE E b = true)
    (h : 0 < b.length) : b.getD 0 0 = E := by
  cases b with
  | nil => simp at h
  | cons x xs =>
    have := (List.all_eq_true.mp hb) x (List.mem_cons_self x xs)
    exact beq_iff_eq.mp this

theorem applyOp_bank0_length (E : Nat) (s : TxState) (op : Op) :
    (applyOp E s op).bank0.length = s.bank0.length := by
  rcases op with ⟨b⟩ | ⟨b, p, d⟩ <;> cases b <;>
    simp [applyOp, List.length_replicate, writeBytes_length]

theorem applyOp_bank1_length (E : Nat) (s : TxState) (op : Op) :
    (applyOp E s op).bank1.length = s.bank1.length := by
  rcases op with ⟨b⟩ | ⟨b, p, d⟩ <;> cases b <;>
    simp [applyOp, List.length_replicate, writeBytes_length]

theorem fastImage_getD0 (E : Nat) (b : List Nat) (wp L : Nat) (pay : List Nat)
    (hlen : 0 < b.length) (hb : b.getD 0 0 = recordByte E) :
    (writeBytes (writeBytes (writeBytes b (wp + 1) (le16 L)) (wp + 1 + sizeL) (pay.take L))
      wp [recordByte E]).getD 0 0 = recordByte E := by
  rcases Nat.eq_zero_or_pos wp with hwp | hwp
  · subst hwp
    exact fastImage_getD_wp E b 0 L pay hlen
  · rw [fastImage_getD_lt E b wp L pay 0 hwp]
    exact hb

theorem not_both_erased (E : Nat) (t : TxState) (hb0 : 0 < t.bank0.length)
    (hb1 : 0 < t.bank1.length)
    (h : t.bank0.getD 0 0 = recordByte E ∨ t.bank1.getD 0 0 = recordByte E) :
    ¬ (bankAllE E t.bank0 = true ∧ bankAllE E t.bank1 = true) := by
  rintro ⟨ha, hb⟩
  rcases h with h | h
  · exact recordByte_ne E (h.symm.trans (bankAllE_getD0 E _ ha hb0))
  · exact recordByte_ne E (h.symm.trans (bankAllE_getD0 E _ hb hb1))

theorem applyOps_bank0_length (E : Nat) :
    ∀ (ops : List Op) (s : TxState), (applyOps E s ops).bank0.length = s.bank0.length := by
  intro ops
  induction ops with
  | nil => intro s; rfl
  | cons op rest ih =>
    intro s
    show (applyOps E (applyOp E s op) rest).bank0.length = s.bank0.length
    rw [ih (applyOp E s op), applyOp_bank0_length]

theorem applyOps_bank1_length (E : Nat) :
    ∀ (ops : List Op) (s : TxState), (applyOps E s ops).bank1.length = s.bank1.length := by
  intro ops
  induction ops with
  | nil => intro s; rfl
  | cons op rest ih =>
    intro s
    show (applyOps E (applyOp E s op) rest).bank1.length = s.bank1.length
    rw [ih (applyOp E s op), applyOp_bank1_length]

/-! ### Claims -/

/-- C4: at construction the scanner reads byte 0 of each bank and dispatches:
EMPTY when both equal `E`; scan Bank0 when Bank0 reads RECORD and Bank1 EMPTY;
scan Bank1 when Bank1 reads RECORD and Bank0 EMPTY; scan Bank1 when both read
RECORD; INVALID — and an engine reset — for every other byte combination. -/
theorem C4_recovery_bank_selection (E : Nat) (b0 b1 : List Nat) (dflt : List Nat) (dlen : Nat) :
    (b0.getD 0 0 = E → b1.getD 0 0 = E →
      parse E b0 b1 = (PState.empty, Bank.BANK0, 0, 0)) ∧
    (b0.getD 0 0 = recordByte E → b1.getD 0 0 = E →
      parse E b0 b1 = scanOutcome Bank.BANK0 (fastForward E b0)) ∧
    (b0.getD 0 0 = E → b1.getD 0 0 = recordByte E →
      parse E b0 b1 = scanOutcome Bank.BANK1 (fastForward E b1)) ∧
    (b0.getD 0 0 = recordByte E → b1.getD 0 0 = recordByte E →
      parse E b0 b1 = scanOutcome Bank.BANK1 (fastForward E b1)) ∧
    ((b0.getD 0 0 ≠ E ∧ b0.getD 0 0 ≠ recordByte E) ∨
     (b1.getD 0 0 ≠ E ∧ b1.getD 0 0 ≠ recordByte E) →
      (parse E b0 b1).1 = PState.invalid ∧
      engineInit E dflt dlen b0 b1 =
        (resetTx E dflt dlen ⟨b0, b1, Bank.BANK0, Bank.BANK0, 0, 0⟩).st) :=
  ⟨fun h0 h1 => parse_empty E b0 b1 h0 h1,
   fun h0 h1 => parse_sel0 E b0 b1 h0 h1,
   fun h0 h1 => parse_sel1 E b0 b1 h0 h1,
   fun h0 h1 => parse_sel11 E b0 b1 h0 h1,
   fun h => ⟨parse_other E b0 b1 h,
             engineInit_invalid E dflt dlen b0 b1 (parse_other E b0 b1 h)⟩⟩

/-- C4 witness: a concrete RECORD/EMPTY pair is scanned in Bank0. -/
theorem C4_recovery_bank_selection_witness :
    ([1, 5, 0, 7, 7, 7, 7, 0] ++ List.replicate 12 0).getD 0 0 = recordByte 0 ∧
    parse 0 ([1, 5, 0, 7, 7, 7, 7, 0] ++ List.replicate 12 0) (List.replicate 20 0) =
      scanOutcome Bank.BANK0
        (fastForward 0 ([1, 5, 0, 7, 7, 7, 7, 0] ++ List.replicate 12 0)) :=
  ⟨by decide,
   (C4_recovery_bank_selection 0 ([1, 5, 0, 7, 7, 7, 7, 0] ++ List.replicate 12 0)
     (List.replicate 20 0) [] 0).2.1 (by decide) (by decide)⟩

/-- C5: one step of the fast-forward scan at `read_position` returns INVALID when
fewer than `1 + sizeL + 1` bytes remain, or when the parsed length `L` leaves
fewer than `1 + sizeL + L + 1` bytes remaining, or when the byte at
`read_position + 1 + sizeL + L` is neither EMPTY nor RECORD; it returns VALID
with the cursors `(read_position, read_position + 1 + sizeL + L)` when that byte
is EMPTY; and it advances `read_position` to that byte and repeats when it is
RECORD.  The whole scan is this loop started at position 0. -/
theorem C5_fast_forward_scan (E : Nat) (b : List Nat) (fuel rp : Nat)
    (hlen : b.length < 65536) (hrp : rp ≤ b.length) :
    (fastForward E b = ffAux E b (b.length + 1) 0) ∧
    (remBytes b.length rp < 1 + sizeL + 1 → ffAux E b (fuel + 1) rp = none) ∧
    (∀ L, L = readLE16 b (rp + 1) → 1 + sizeL + 1 ≤ remBytes b.length rp →
      (remBytes b.length rp < 1 + sizeL + L + 1 → ffAux E b (fuel + 1) rp = none) ∧
      (1 + sizeL + L + 1 ≤ remBytes b.length rp →
        (b.getD (rp + 1 + sizeL + L) 0 = E →
          ffAux E b (fuel + 1) rp = some (rp, rp + 1 + sizeL + L)) ∧
        (b.getD (rp + 1 + sizeL + L) 0 ≠ E → b.getD (rp + 1 + sizeL + L) 0 = recordByte E →
          ffAux E b (fuel + 1) rp = ffAux E b fuel (rp + 1 + sizeL + L)) ∧
        (b.getD (rp + 1 + sizeL + L) 0 ≠ E → b.getD (rp + 1 + sizeL + L) 0 ≠ recordByte E →
          ffAux E b (fuel + 1) rp = none))) := by
  have hsz : sizeL = 2 := rfl
  refine ⟨rfl, ?_, ?_⟩
  · intro hsmall
    rw [ffAux_succ, if_pos hsmall]
  · intro L hLdef hbig
    subst hLdef
    constructor
    · intro hsmall2
      rw [ffAux_succ, if_neg (by omega), if_pos hsmall2]
    · intro hfit
      rw [remBytes_eq hrp hlen] at hbig hfit
      have hwp : (rp + 1 + sizeL + readLE16 b (rp + 1)) % 65536
          = rp + 1 + sizeL + readLE16 b (rp + 1) := Nat.mod_eq_of_lt (by omega)
      refine ⟨fun hc => ?_, fun hne hc => ?_, fun hne hne2 => ?_⟩
      · rw [ffAux_succ, remBytes_eq hrp hlen, if_neg (by omega), if_neg (by omega),
            hwp, if_pos hc]
      · rw [ffAux_succ, remBytes_eq hrp hlen, if_neg (by omega), if_neg (by omega),
            hwp, if_neg hne, if_pos hc]
      · rw [ffAux_succ, remBytes_eq hrp hlen, if_neg (by omega), if_neg (by omega),
            hwp, if_neg hne, if_neg hne2]

theorem fastResult_read (E : Nat) (s : TxState) (pay : List Nat) (L : Nat)
    (hL : L < 65536) (hpay : L ≤ pay.length)
    (hfit : s.write_position + 1 + sizeL + L + 1 ≤ (bankData s s.write_bank).length) :
    lengthTx (fastResult E s pay L).st = L ∧
    readTx (fastResult E s pay L).st = pay.take L := by
  have hsz : sizeL = 2 := rfl
  have hlen : lengthTx (fastResult E s pay L).st = L := by
    unfold lengthTx
    rw [fastResult_read_bank, fastResult_read_position, fastResult_active]
    exact fastImage_le16 E (bankData s s.write_bank) s.write_position L pay hL (by omega)
  refine ⟨hlen, ?_⟩
  unfold readTx
  rw [fastResult_read_bank, fastResult_read_position, fastResult_active, hlen]
  have htk : (pay.take L).length = L := by
    rw [List.length_take]
    omega
  have h2 : readBytes (writeBytes (writeBytes (writeBytes (bankData s s.write_bank)
      (s.write_position + 1) (le16 L)) (s.write_position + 1 + sizeL) (pay.take L))
      s.write_position [recordByte E]) (s.write_position + 1 + sizeL) ((pay.take L).length)
      = pay.take L := by
    apply readBytes_eq_of_getD
    intro i hi
    rw [htk] at hi
    rw [fastImage_getD_pay E _ _ _ _ i hi hpay hfit]
    exact (take_getD pay L i hi).symm
  rw [htk] at h2
  exact h2

/-- C3: `write(payload, L)` returns false exactly when the record does not fit
either bank, i.e. when `min(len(Bank0), len(Bank1)) < 1 + sizeof(position_t) +
L + 1`; and on failure the cursors and both bank contents are unchanged and no
erase or chunk write is issued. -/
theorem C3_write_failure (E : Nat) (s : TxState) (payload : List Nat) (L : Nat)
    (hlen0 : s.bank0.length < 65536) (hlen1 : s.bank1.length < 65536) :
    ((writeTx E s payload L).ok = false ↔
      min s.bank0.length s.bank1.length < 1 + sizeL + L + 1) ∧
    ((writeTx E s payload L).ok = false →
      (writeTx E s payload L).st = s ∧ (writeTx E s payload L).ops = []) := by
  have hr0 : remBytes s.bank0.length 0 = s.bank0.length := by
    rw [remBytes_eq (Nat.zero_le _) hlen0, Nat.sub_zero]
  have hr1 : remBytes s.bank1.length 0 = s.bank1.length := by
    rw [remBytes_eq (Nat.zero_le _) hlen1, Nat.sub_zero]
  by_cases hcap : min (remBytes s.bank0.length 0) (remBytes s.bank1.length 0)
      < 1 + sizeL + L + 1
  · have he : writeTx E s payload L = ⟨false, s, []⟩ := writeFuel_fail E 1 s payload L hcap
    rw [he]
    rw [hr0, hr1] at hcap
    exact ⟨⟨fun _ => hcap, fun _ => rfl⟩, fun _ => ⟨rfl, rfl⟩⟩
  · have hok : (writeTx E s payload L).ok = true := by
      rcases writeTx_cases E s payload L hcap with ⟨_, he⟩ | ⟨_, _, he⟩ | ⟨_, _, he⟩ <;>
        rw [he] <;> rfl
    rw [hr0, hr1] at hcap
    rw [hok]
    exact ⟨⟨fun hf => absurd hf (by simp), fun hlt => absurd hlt hcap⟩,
           fun hf => absurd hf (by simp)⟩

/-- C3 witness: a 23-byte payload is rejected by 20-byte banks. -/
theorem C3_write_failure_witness :
    (writeTx 0 ⟨List.replicate 20 0, List.replicate 20 0, Bank.BANK0, Bank.BANK0, 0, 0⟩
      (List.replicate 23 7) 23).ok = false :=
  ((C3_write_failure 0
      ⟨List.replicate 20 0, List.replicate 20 0, Bank.BANK0, Bank.BANK0, 0, 0⟩
      (List.replicate 23 7) 23 (by decide) (by decide)).1).mpr (by decide)

/-- C7: ping-pong discipline — a write migrating from Bank0 to Bank1 erases
Bank1, writes the record there (length, payload, header) and never erases
Bank0; a write migrating from Bank1 to Bank0 erases Bank0, writes the record
there, and erases Bank1 only after those writes, as the final operation; and
at no prefix of any write's operation sequence are both banks simultaneously
fully erased (given the active bank holds a record when the write starts). -/
theorem C7_ping_pong_discipline (E : Nat) (s : TxState) (payload : List Nat) (L : Nat)
    (hb0 : 0 < s.bank0.length) (hb1 : 0 < s.bank1.length)
    (hact : (bankData s s.write_bank).getD 0 0 = recordByte E) :
    (¬ min (remBytes s.bank0.length 0) (remBytes s.bank1.length 0) < 1 + sizeL + L + 1 →
     ¬ 1 + sizeL + L + 1 ≤ remBytes (bankData s s.write_bank).length s.write_position →
     s.write_bank = Bank.BANK0 →
      (writeTx E s payload L).ops =
        [Op.erase Bank.BANK1, Op.wchunk Bank.BANK1 1 (le16 L),
         Op.wchunk Bank.BANK1 (1 + sizeL) (payload.take L),
         Op.wchunk Bank.BANK1 0 [recordByte E]] ∧
      Op.erase Bank.BANK0 ∉ (writeTx E s payload L).ops) ∧
    (¬ min (remBytes s.bank0.length 0) (remBytes s.bank1.length 0) < 1 + sizeL + L + 1 →
     ¬ 1 + sizeL + L + 1 ≤ remBytes (bankData s s.write_bank).length s.write_position →
     s.write_bank = Bank.BANK1 →
      (writeTx E s payload L).ops =
        [Op.erase Bank.BANK0, Op.wchunk Bank.BANK0 1 (le16 L),
         Op.wchunk Bank.BANK0 (1 + sizeL) (payload.take L),
         Op.wchunk Bank.BANK0 0 [recordByte E], Op.erase Bank.BANK1]) ∧
    (∀ n, ¬ (bankAllE E (applyOps E s ((writeTx E s payload L).ops.take n)).bank0 = true ∧
             bankAllE E (applyOps E s ((writeTx E s payload L).ops.take n)).bank1 = true)) := by
  refine ⟨?_, ?_, ?_⟩
  · intro hcap hfull hwb
    rcases writeTx_cases E s payload L hcap with ⟨hf, _⟩ | ⟨_, _, he⟩ | ⟨_, hwb', _⟩
    · exact absurd hf hfull
    · have hops : (writeTx E s payload L).ops =
          [Op.erase Bank.BANK1, Op.wchunk Bank.BANK1 1 (le16 L),
           Op.wchunk Bank.BANK1 (1 + sizeL) (payload.take L),
           Op.wchunk Bank.BANK1 0 [recordByte E]] := by
        rw [he, wr_ops_mk, fastResult_ops]
      refine ⟨hops, ?_⟩
      rw [hops]
      simp
    · rw [hwb] at hwb'
      exact absurd hwb' (by simp)
  · intro hcap hfull hwb
    rcases writeTx_cases E s payload L hcap with ⟨hf, _⟩ | ⟨_, hwb', _⟩ | ⟨_, _, he⟩
    · exact absurd hf hfull
    · rw [hwb] at hwb'
      exact absurd hwb' (by simp)
    · rw [he, wr_ops_mk, fastResult_ops]
      rfl
  · intro n
    have hl0 : 0 < (applyOps E s ((writeTx E s payload L).ops.take n)).bank0.length := by
      rw [applyOps_bank0_length]
      exact hb0
    have hl1 : 0 < (applyOps E s ((writeTx E s payload L).ops.take n)).bank1.length := by
      rw [applyOps_bank1_length]
      exact hb1
    apply not_both_erased E _ hl0 hl1
    by_cases hcap : min (remBytes s.bank0.length 0) (remBytes s.bank1.length 0)
        < 1 + sizeL + L + 1
    · have hops : (writeTx E s payload L).ops = [] := by
        have hfail : writeTx E s payload L = ⟨false, s, []⟩ :=
          writeFuel_fail E 1 s payload L hcap
        rw [hfail]
      rw [hops, List.take_nil]
      cases hwb : s.write_bank
      · rw [hwb] at hact
        exact Or.inl hact
      · rw [hwb] at hact
        exact Or.inr hact
    · rcases writeTx_cases E s payload L hcap with ⟨_, he⟩ | ⟨_, hwb, he⟩ | ⟨_, hwb, he⟩
      · cases hwb : s.write_bank
        · rw [hwb] at hact
          have hops : (writeTx E s payload L).ops =
              [Op.wchunk Bank.BANK0 (s.write_position + 1) (le16 L),
               Op.wchunk Bank.BANK0 (s.write_position + 1 + sizeL) (payload.take L),
               Op.wchunk Bank.BANK0 s.write_position [recordByte E]] := by
            rw [he, fastResult_ops, hwb]
          rw [hops]
          rcases n with _ | _ | _ | n
          · exact Or.inl hact
          · exact Or.inl ((partialImage1_getD s.bank0 s.write_position L 0
              (Nat.zero_le _)).trans hact)
          · exact Or.inl ((partialImage2_getD s.bank0 s.write_position L payload 0
              (Nat.zero_le _)).trans hact)
          · simp only [List.take_succ_cons, List.take_nil]
            exact Or.inl (fastImage_getD0 E s.bank0 s.write_position L payload hb0 hact)
        · rw [hwb] at hact
          have hops : (writeTx E s payload L).ops =
              [Op.wchunk Bank.BANK1 (s.write_position + 1) (le16 L),
               Op.wchunk Bank.BANK1 (s.write_position + 1 + sizeL) (payload.take L),
               Op.wchunk Bank.BANK1 s.write_position [recordByte E]] := by
            rw [he, fastResult_ops, hwb]
          rw [hops]
          rcases n with _ | _ | _ | n
          · exact Or.inr hact
          · exact Or.inr ((partialImage1_getD s.bank1 s.write_position L 0
              (Nat.zero_le _)).trans hact)
          · exact Or.inr ((partialImage2_getD s.bank1 s.write_position L payload 0
              (Nat.zero_le _)).trans hact)
          · simp only [List.take_succ_cons, List.take_nil]
            exact Or.inr (fastImage_getD0 E s.bank1 s.write_position L payload hb1 hact)
      · rw [hwb] at hact
        have hops : (writeTx E s payload L).ops =
            [Op.erase Bank.BANK1, Op.wchunk Bank.BANK1 1 (le16 L),
             Op.wchunk Bank.BANK1 (1 + sizeL) (payload.take L),
             Op.wchunk Bank.BANK1 0 [recordByte E]] := by
          rw [he, wr_ops_mk, fastResult_ops]
        rw [hops]
        rcases n with _ | _ | _ | _ | n
        · exact Or.inl hact
        · exact Or.inl hact
        · exact Or.inl hact
        · exact Or.inl hact
        · simp only [List.take_succ_cons, List.take_nil]
          exact Or.inl hact
      · rw [hwb] at hact
        have hops : (writeTx E s payload L).ops =
            [Op.erase Bank.BANK0, Op.wchunk Bank.BANK0 1 (le16 L),
             Op.wchunk Bank.BANK0 (1 + sizeL) (payload.take L),
             Op.wchunk Bank.BANK0 0 [recordByte E], Op.erase Bank.BANK1] := by
          rw [he, wr_ops_mk, fastResult_ops]
          rfl
        rw [hops]
        rcases n with _ | _ | _ | _ | _ | n
        · exact Or.inr hact
        · exact Or.inr hact
        · exact Or.inr hact
        · exact Or.inr hact
        · exact Or.inr hact
        · simp only [List.take_succ_cons, List.take_nil]
          exact Or.inl (fastImage_getD_wp E (List.replicate s.bank0.length E) 0 L payload
            (by rw [List.length_replicate]; exact hb0))

/-- C7 witness: a concrete migration from Bank0 to Bank1 on full 10-byte banks. -/
theorem C7_ping_pong_discipline_witness :
    (writeTx 0 ⟨[1, 3, 0, 9, 9, 0, 0, 0, 0, 0], List.replicate 10 0,
       Bank.BANK0, Bank.BANK0, 0, 6⟩ [8, 8, 0] 3).ops =
      [Op.erase Bank.BANK1, Op.wchunk Bank.BANK1 1 (le16 3),
       Op.wchunk Bank.BANK1 (1 + sizeL) ([8, 8, 0].take 3),
       Op.wchunk Bank.BANK1 0 [recordByte 0]] ∧
    Op.erase Bank.BANK0 ∉ (writeTx 0 ⟨[1, 3, 0, 9, 9, 0, 0, 0, 0, 0], List.replicate 10 0,
       Bank.BANK0, Bank.BANK0, 0, 6⟩ [8, 8, 0] 3).ops :=
  (C7_ping_pong_discipline 0 ⟨[1, 3, 0, 9, 9, 0, 0, 0, 0, 0], List.replicate 10 0,
      Bank.BANK0, Bank.BANK0, 0, 6⟩ [8, 8, 0] 3 (by decide) (by decide) (by decide)).1
    (by decide) (by decide) (by decide)

theorem fastResult_length (E : Nat) (s : TxState) (pay : List Nat) (L : Nat)
    (hL : L < 65536)
    (hfit : s.write_position + 1 + sizeL + L + 1 ≤ (bankData s s.write_bank).length) :
    lengthTx (fastResult E s pay L).st = L := by
  have hsz : sizeL = 2 := rfl
  unfold lengthTx
  rw [fastResult_read_bank, fastResult_read_position, fastResult_active]
  exact fastImage_le16 E (bankData s s.write_bank) s.write_position L pay hL (by omega)

theorem applyOp_eraseB1_lengthTx (E : Nat) (X : TxState) (hX : X.read_bank = Bank.BANK0) :
    lengthTx (applyOp E X (Op.erase Bank.BANK1)) = lengthTx X := by
  unfold lengthTx
  rw [show (applyOp E X (Op.erase Bank.BANK1)).read_bank = X.read_bank from rfl, hX]
  rfl

/-- Writing from a fresh all-cursors-zero BANK0 state establishes the cursor
invariant (used for the EMPTY construction path and for `reset`). -/
theorem writeFresh_cursorInv (E : Nat) (b0 b1 : List Nat) (dflt : List Nat) (dlen : Nat)
    (h0E : b0.getD 0 0 = E)
    (hlen0 : b0.length < 65536) (hlen1 : b1.length < 65536) (hdlen : dlen < 65536) :
    CursorInv E (writeTx E ⟨b0, b1, Bank.BANK0, Bank.BANK0, 0, 0⟩ dflt dlen).st := by
  have hsz : sizeL = 2 := rfl
  by_cases hcap : min (remBytes b0.length 0) (remBytes b1.length 0) < 1 + sizeL + dlen + 1
  · have hfail : writeTx E ⟨b0, b1, Bank.BANK0, Bank.BANK0, 0, 0⟩ dflt dlen
        = ⟨false, ⟨b0, b1, Bank.BANK0, Bank.BANK0, 0, 0⟩, []⟩ :=
      writeFuel_fail E 1 _ dflt dlen hcap
    rw [hfail]
    exact Or.inr ⟨h0E, rfl, rfl⟩
  · have hr0 : remBytes b0.length 0 = b0.length := by
      rw [remBytes_eq (Nat.zero_le _) hlen0, Nat.sub_zero]
    have hr1 : remBytes b1.length 0 = b1.length := by
      rw [remBytes_eq (Nat.zero_le _) hlen1, Nat.sub_zero]
    have hfast : 1 + sizeL + dlen + 1 ≤
        remBytes (bankData ⟨b0, b1, Bank.BANK0, Bank.BANK0, 0, 0⟩ Bank.BANK0).length 0 := by
      show 1 + sizeL + dlen + 1 ≤ remBytes b0.length 0
      omega
    have hw : writeTx E ⟨b0, b1, Bank.BANK0, Bank.BANK0, 0, 0⟩ dflt dlen
        = fastResult E ⟨b0, b1, Bank.BANK0, Bank.BANK0, 0, 0⟩ dflt dlen :=
      writeFuel_fast E 1 ⟨b0, b1, Bank.BANK0, Bank.BANK0, 0, 0⟩ dflt dlen hcap hfast
    rw [hw]
    left
    constructor
    · rw [fastResult_read_bank, fastResult_write_bank]
    · rw [fastResult_write_position, fastResult_read_position,
          fastResult_length E ⟨b0, b1, Bank.BANK0, Bank.BANK0, 0, 0⟩ dflt dlen hdlen
            (by show (0 : Nat) + 1 + sizeL + dlen + 1 ≤ b0.length; omega)]
    ; show ((0 : Nat) + 1 + sizeL + dlen) % 65536 = 0 + 1 + sizeL + dlen
      exact Nat.mod_eq_of_lt (by omega)

/-- `write` preserves the cursor invariant. -/
theorem write_cursorInv (E : Nat) (s : TxState) (payload : List Nat) (L : Nat)
    (hlen0 : s.bank0.length < 65536) (hlen1 : s.bank1.length < 65536)
    (hwp : s.write_position ≤ (bankData s s.write_bank).length)
    (hL : L < 65536) (hci : CursorInv E s) :
    CursorInv E (writeTx E s payload L).st := by
  have hsz : sizeL = 2 := rfl
  by_cases hcap : min (remBytes s.bank0.length 0) (remBytes s.bank1.length 0)
      < 1 + sizeL + L + 1
  · have hfail : writeTx E s payload L = ⟨false, s, []⟩ :=
      writeFuel_fail E 1 s payload L hcap
    rw [hfail]
    exact hci
  · have hr0 : remBytes s.bank0.length 0 = s.bank0.length := by
      rw [remBytes_eq (Nat.zero_le _) hlen0, Nat.sub_zero]
    have hr1 : remBytes s.bank1.length 0 = s.bank1.length := by
      rw [remBytes_eq (Nat.zero_le _) hlen1, Nat.sub_zero]
    have hwlen : (bankData s s.write_bank).length < 65536 := by
      cases s.write_bank
      · exact hlen0
      · exact hlen1
    rcases writeTx_cases E s payload L hcap with ⟨hfast, he⟩ | ⟨_, hwb, he⟩ | ⟨_, hwb, he⟩
    · rw [he]
      rw [remBytes_eq hwp hwlen] at hfast
      left
      constructor
      · rw [fastResult_read_bank, fastResult_write_bank]
      · rw [fastResult_write_position, fastResult_read_position,
            fastResult_length E s payload L hL (by omega)]
        exact Nat.mod_eq_of_lt (by omega)
    · rw [he, wr_st_mk]
      left
      constructor
      · rw [fastResult_read_bank, fastResult_write_bank]
      · rw [fastResult_write_position, fastResult_read_position,
            fastResult_length E { s with write_bank := Bank.BANK1, write_position := 0,
                                         bank1 := List.replicate s.bank1.length E }
              payload L hL
              (by show (0 : Nat) + 1 + sizeL + L + 1 ≤ (List.replicate s.bank1.length E).length
                  rw [List.length_replicate]
                  omega)]
        show ((0 : Nat) + 1 + sizeL + L) % 65536 = 0 + 1 + sizeL + L
        exact Nat.mod_eq_of_lt (by omega)
    · rw [he, wr_st_mk]
      left
      constructor
      · rw [show ∀ X : TxState, (applyOp E X (Op.erase Bank.BANK1)).read_bank = X.read_bank
              from fun X => rfl,
            show ∀ X : TxState, (applyOp E X (Op.erase Bank.BANK1)).write_bank = X.write_bank
              from fun X => rfl,
            fastResult_read_bank, fastResult_write_bank]
      · rw [show ∀ X : TxState, (applyOp E X (Op.erase Bank.BANK1)).write_position
              = X.write_position from fun X => rfl,
            show ∀ X : TxState, (applyOp E X (Op.erase Bank.BANK1)).read_position
              = X.read_position from fun X => rfl,
            applyOp_eraseB1_lengthTx E _ (fastResult_read_bank E _ payload L),
            fastResult_write_position, fastResult_read_position,
            fastResult_length E { s with write_bank := Bank.BANK0, write_position := 0,
                                         bank0 := List.replicate s.bank0.length E }
              payload L hL
              (by show (0 : Nat) + 1 + sizeL + L + 1 ≤ (List.replicate s.bank0.length E).length
                  rw [List.length_replicate]
                  omega)]
        show ((0 : Nat) + 1 + sizeL + L) % 65536 = 0 + 1 + sizeL + L
        exact Nat.mod_eq_of_lt (by omega)

/-- `reset` establishes the cursor invariant. -/
theorem reset_cursorInv (E : Nat) (dflt : List Nat) (dlen : Nat) (s : TxState)
    (hlen0 : s.bank0.length < 65536) (hlen1 : s.bank1.length < 65536)
    (h0 : 0 < s.bank0.length) (hdlen : dlen < 65536) :
    CursorInv E (resetTx E dflt dlen s).st := by
  have hstruct : resetTx E dflt dlen s =
      ⟨(writeTx E ⟨List.replicate s.bank0.length E, List.replicate s.bank1.length E,
          Bank.BANK0, Bank.BANK0, 0, 0⟩ dflt dlen).ok,
       (writeTx E ⟨List.replicate s.bank0.length E, List.replicate s.bank1.length E,
          Bank.BANK0, Bank.BANK0, 0, 0⟩ dflt dlen).st,
       Op.erase Bank.BANK0 :: Op.erase Bank.BANK1 ::
         (writeTx E ⟨List.replicate s.bank0.length E, List.replicate s.bank1.length E,
            Bank.BANK0, Bank.BANK0, 0, 0⟩ dflt dlen).ops⟩ := rfl
  rw [hstruct, wr_st_mk]
  exact writeFresh_cursorInv E (List.replicate s.bank0.length E)
    (List.replicate s.bank1.length E) dflt dlen
    (by rw [replicate_getD, if_pos h0])
    (by rw [List.length_replicate]; exact hlen0)
    (by rw [List.length_replicate]; exact hlen1) hdlen

theorem reconA (E : Nat) (dflt : List Nat) (dlen : Nat) (c0 c1 : List Nat) (rp wp : Nat)
    (h0 : c0.getD 0 0 = recordByte E) (h1 : c1.getD 0 0 = E)
    (hff : fastForward E c0 = some (rp, wp)) :
    (parse E c0 c1).1 = PState.valid ∧
    engineInit E dflt dlen c0 c1 = ⟨c0, c1, Bank.BANK0, Bank.BANK0, rp, wp⟩ := by
  have hp : parse E c0 c1 = (PState.valid, Bank.BANK0, rp, wp) := by
    rw [parse_sel0 E c0 c1 h0 h1, hff]
    rfl
  exact ⟨by rw [hp], engineInit_valid E dflt dlen c0 c1 Bank.BANK0 rp wp hp⟩

theorem reconB (E : Nat) (dflt : List Nat) (dlen : Nat) (c0 c1 : List Nat) (rp wp : Nat)
    (h0 : c0.getD 0 0 = E ∨ c0.getD 0 0 = recordByte E)
    (h1 : c1.getD 0 0 = recordByte E)
    (hff : fastForward E c1 = some (rp, wp)) :
    (parse E c0 c1).1 = PState.valid ∧
    engineInit E dflt dlen c0 c1 = ⟨c0, c1, Bank.BANK1, Bank.BANK1, rp, wp⟩ := by
  have hp : parse E c0 c1 = (PState.valid, Bank.BANK1, rp, wp) := by
    rcases h0 with h0 | h0
    · rw [parse_sel1 E c0 c1 h0 h1, hff]
      rfl
    · rw [parse_sel11 E c0 c1 h0 h1, hff]
      rfl
  exact ⟨by rw [hp], engineInit_valid E dflt dlen c0 c1 Bank.BANK1 rp wp hp⟩

theorem readTx_mk0 (c0 c1 : List Nat) (rp wp : Nat) :
    readTx ⟨c0, c1, Bank.BANK0, Bank.BANK0, rp, wp⟩
      = readBytes c0 (rp + 1 + sizeL) (readLE16 c0 (rp + 1)) := rfl

theorem readTx_mk1 (c0 c1 : List Nat) (rp wp : Nat) :
    readTx ⟨c0, c1, Bank.BANK1, Bank.BANK1, rp, wp⟩
      = readBytes c1 (rp + 1 + sizeL) (readLE16 c1 (rp + 1)) := rfl

/-- The record read out of a bank agrees between two byte arrays that agree up
to the terminator position. -/
theorem readAgree (b b' : List Nat) (rp wp : Nat)
    (hag : ∀ i, i ≤ wp → b'.getD i 0 = b.getD i 0)
    (hwpeq : wp = rp + 1 + sizeL + readLE16 b (rp + 1)) :
    readBytes b' (rp + 1 + sizeL) (readLE16 b' (rp + 1))
      = readBytes b (rp + 1 + sizeL) (readLE16 b (rp + 1)) := by
  have hsz : sizeL = 2 := rfl
  have hL' : readLE16 b' (rp + 1) = readLE16 b (rp + 1) := by
    unfold readLE16
    rw [hag (rp + 1) (by omega), hag (rp + 1 + 1) (by omega)]
  rw [hL']
  exact readBytes_congr b b' (rp + 1 + sizeL) (readLE16 b (rp + 1))
    (fun i hi => hag (rp + 1 + sizeL + i) (by omega))

/-- Reading back the record just emitted at `wp` returns the written payload. -/
theorem readImage (E : Nat) (b : List Nat) (wp L : Nat) (pay : List Nat)
    (hL : L < 65536) (hpay : L ≤ pay.length)
    (hfit : wp + 1 + sizeL + L + 1 ≤ b.length) :
    readBytes (writeBytes (writeBytes (writeBytes b (wp + 1) (le16 L))
        (wp + 1 + sizeL) (pay.take L)) wp [recordByte E]) (wp + 1 + sizeL)
      (readLE16 (writeBytes (writeBytes (writeBytes b (wp + 1) (le16 L))
        (wp + 1 + sizeL) (pay.take L)) wp [recordByte E]) (wp + 1)) = pay.take L := by
  have hsz : sizeL = 2 := rfl
  have hlen : readLE16 (writeBytes (writeBytes (writeBytes b (wp + 1) (le16 L))
      (wp + 1 + sizeL) (pay.take L)) wp [recordByte E]) (wp + 1) = L :=
    fastImage_le16 E b wp L pay hL (by omega)
  rw [hlen]
  have htk : (pay.take L).length = L := by
    rw [List.length_take]
    omega
  have h2 : readBytes (writeBytes (writeBytes (writeBytes b (wp + 1) (le16 L))
      (wp + 1 + sizeL) (pay.take L)) wp [recordByte E]) (wp + 1 + sizeL)
      ((pay.take L).length) = pay.take L := by
    apply readBytes_eq_of_getD
    intro i hi
    rw [htk] at hi
    rw [fastImage_getD_pay E _ _ _ _ i hi hpay hfit]
    exact (take_getD pay L i hi).symm
  rw [htk] at h2
  exact h2

/-- Construction establishes the cursor invariant whatever the initial bank
contents. -/
theorem engineInit_cursorInv (E : Nat) (dflt : List Nat) (dlen : Nat) (b0 b1 : List Nat)
    (h0 : 0 < b0.length) (hlen0 : b0.length < 65536) (hlen1 : b1.length < 65536)
    (hdlen : dlen < 65536) :
    CursorInv E (engineInit E dflt dlen b0 b1) := by
  by_cases h0E : b0.getD 0 0 = E
  · by_cases h1E : b1.getD 0 0 = E
    · rw [engineInit_empty E dflt dlen b0 b1 h0E h1E]
      exact writeFresh_cursorInv E b0 b1 dflt dlen h0E hlen0 hlen1 hdlen
    · by_cases h1R : b1.getD 0 0 = recordByte E
      · rcases hff : fastForward E b1 with _ | ⟨r, w⟩
        · have hp : (parse E b0 b1).1 = PState.invalid := by
            rw [parse_sel1 E b0 b1 h0E h1R, hff]
            rfl
          rw [engineInit_invalid E dflt dlen b0 b1 hp]
          exact reset_cursorInv E dflt dlen _ hlen0 hlen1 h0 hdlen
        · have hp : parse E b0 b1 = (PState.valid, Bank.BANK1, r, w) := by
            rw [parse_sel1 E b0 b1 h0E h1R, hff]
            rfl
          rw [engineInit_valid E dflt dlen b0 b1 Bank.BANK1 r w hp]
          obtain ⟨_, hw2, _, _⟩ := ff_spec E b1 hlen1 (b1.length + 1) 0 r w
            (Nat.zero_le _) hff
          exact Or.inl ⟨rfl, hw2⟩
      · have hp : (parse E b0 b1).1 = PState.invalid :=
          parse_other E b0 b1 (Or.inr ⟨h1E, h1R⟩)
        rw [engineInit_invalid E dflt dlen b0 b1 hp]
        exact reset_cursorInv E dflt dlen _ hlen0 hlen1 h0 hdlen
  · by_cases h0R : b0.getD 0 0 = recordByte E
    · by_cases h1E : b1.getD 0 0 = E
      · rcases hff : fastForward E b0 with _ | ⟨r, w⟩
        · have hp : (parse E b0 b1).1 = PState.invalid := by
            rw [parse_sel0 E b0 b1 h0R h1E, hff]
            rfl
          rw [engineInit_invalid E dflt dlen b0 b1 hp]
          exact reset_cursorInv E dflt dlen _ hlen0 hlen1 h0 hdlen
        · have hp : parse E b0 b1 = (PState.valid, Bank.BANK0, r, w) := by
            rw [parse_sel0 E b0 b1 h0R h1E, hff]
            rfl
          rw [engineInit_valid E dflt dlen b0 b1 Bank.BANK0 r w hp]
          obtain ⟨_, hw2, _, _⟩ := ff_spec E b0 hlen0 (b0.length + 1) 0 r w
            (Nat.zero_le _) hff
          exact Or.inl ⟨rfl, hw2⟩
      · by_cases h1R : b1.getD 0 0 = recordByte E
        · rcases hff : fastForward E b1 with _ | ⟨r, w⟩
          · have hp : (parse E b0 b1).1 = PState.invalid := by
              rw [parse_sel11 E b0 b1 h0R h1R, hff]
              rfl
            rw [engineInit_invalid E dflt dlen b0 b1 hp]
            exact reset_cursorInv E dflt dlen _ hlen0 hlen1 h0 hdlen
          · have hp : parse E b0 b1 = (PState.valid, Bank.BANK1, r, w) := by
              rw [parse_sel11 E b0 b1 h0R h1R, hff]
              rfl
            rw [engineInit_valid E dflt dlen b0 b1 Bank.BANK1 r w hp]
            obtain ⟨_, hw2, _, _⟩ := ff_spec E b1 hlen1 (b1.length + 1) 0 r w
              (Nat.zero_le _) hff
            exact Or.inl ⟨rfl, hw2⟩
        · have hp : (parse E b0 b1).1 = PState.invalid :=
            parse_other E b0 b1 (Or.inr ⟨h1E, h1R⟩)
          rw [engineInit_invalid E dflt dlen b0 b1 hp]
          exact reset_cursorInv E dflt dlen _ hlen0 hlen1 h0 hdlen
    · have hp : (parse E b0 b1).1 = PState.invalid :=
        parse_other E b0 b1 (Or.inl ⟨h0E, h0R⟩)
      rw [engineInit_invalid E dflt dlen b0 b1 hp]
      exact reset_cursorInv E dflt dlen _ hlen0 hlen1 h0 hdlen

/-- C6: after construction and after every completed public operation (write,
reset), either both cursors sit on the same bank with `write_position ==
read_position + 1 + sizeof(position_t) + length_at(read_position)`, or the
active bank is empty and both positions are 0. -/
theorem C6_cursor_invariant (E : Nat) :
    (∀ dflt dlen b0 b1, 0 < b0.length → b0.length < 65536 → b1.length < 65536 →
      dlen < 65536 → CursorInv E (engineInit E dflt dlen b0 b1)) ∧
    (∀ s payload L, s.bank0.length < 65536 → s.bank1.length < 65536 →
      s.write_position ≤ (bankData s s.write_bank).length → L < 65536 →
      CursorInv E s → CursorInv E (writeTx E s payload L).st) ∧
    (∀ dflt dlen s, s.bank0.length < 65536 → s.bank1.length < 65536 →
      0 < s.bank0.length → dlen < 65536 → CursorInv E (resetTx E dflt dlen s).st) :=
  ⟨fun dflt dlen b0 b1 h0 hl0 hl1 hd =>
     engineInit_cursorInv E dflt dlen b0 b1 h0 hl0 hl1 hd,
   fun s payload L hl0 hl1 hwp hL hci =>
     write_cursorInv E s payload L hl0 hl1 hwp hL hci,
   fun dflt dlen s hl0 hl1 h0 hd =>
     reset_cursorInv E dflt dlen s hl0 hl1 h0 hd⟩

/-- C6 witness: a concrete construction and a concrete write both satisfy the
cursor invariant. -/
theorem C6_cursor_invariant_witness :
    CursorInv 0 (engineInit 0 [7, 7, 0] 3 (List.replicate 20 0) (List.replicate 20 0)) ∧
    CursorInv 0 (writeTx 0 ⟨[1, 3, 0, 9, 9, 0, 0, 0, 0, 0], List.replicate 10 0,
      Bank.BANK0, Bank.BANK0, 0, 6⟩ [8, 8, 0] 3).st :=
  ⟨(C6_cursor_invariant 0).1 [7, 7, 0] 3 (List.replicate 20 0) (List.replicate 20 0)
     (by decide) (by decide) (by decide) (by decide),
   (C6_cursor_invariant 0).2.1 ⟨[1, 3, 0, 9, 9, 0, 0, 0, 0, 0], List.replicate 10 0,
      Bank.BANK0, Bank.BANK0, 0, 6⟩ [8, 8, 0] 3
     (by decide) (by decide) (by decide) (by decide) (by decide)⟩

/-- C10 counterexample: over bank contents left by an interrupted earlier write
(a committed record `[33,33,33,33,0]` at 0, EMPTY terminator at 8, and the
leftover length/payload bytes `5,0,65,65,65,65,0` of the interrupted write at
9..15), the recovery scan accepts the record at 0 with `write_position = 8`;
the next write's first `write_chunk` then targets bytes 9..10, whose current
contents `[5, 0]` are not all the erased value — the claimed invariant fails. -/
theorem C10_erased_target_cex :
    engineInit 0 [33, 33, 33, 33, 0] 5
      [1, 5, 0, 33, 33, 33, 33, 0, 0, 5, 0, 65, 65, 65, 65, 0, 0, 0, 0, 0]
      (List.replicate 20 0) =
      ⟨[1, 5, 0, 33, 33, 33, 33, 0, 0, 5, 0, 65, 65, 65, 65, 0, 0, 0, 0, 0],
       List.replicate 20 0, Bank.BANK0, Bank.BANK0, 0, 8⟩ ∧
    (writeTx 0 (engineInit 0 [33, 33, 33, 33, 0] 5
      [1, 5, 0, 33, 33, 33, 33, 0, 0, 5, 0, 65, 65, 65, 65, 0, 0, 0, 0, 0]
      (List.replicate 20 0)) [66, 66, 0] 3).ops.head? =
      some (Op.wchunk Bank.BANK0 9 [3, 0]) ∧
    ([1, 5, 0, 33, 33, 33, 33, 0, 0, 5, 0, 65, 65, 65, 65, 0, 0, 0, 0, 0] :
      List Nat).getD 9 0 = 5 ∧
    opsErasedOK 0 (engineInit 0 [33, 33, 33, 33, 0] 5
      [1, 5, 0, 33, 33, 33, 33, 0, 0, 5, 0, 65, 65, 65, 65, 0, 0, 0, 0, 0]
      (List.replicate 20 0))
      (writeTx 0 (engineInit 0 [33, 33, 33, 33, 0] 5
        [1, 5, 0, 33, 33, 33, 33, 0, 0, 5, 0, 65, 65, 65, 65, 0, 0, 0, 0, 0]
        (List.replicate 20 0)) [66, 66, 0] 3).ops = false := by
  decide

/-- C10 amended: every `write_chunk` issued by a `write` targets a byte range
whose current contents all equal `E`, provided the active bank's bytes from
`write_position` to its end currently read as `E` (which holds in crash-free
operation but not for the bytes beyond the EMPTY terminator left by an
interrupted write — see the counterexample). -/
theorem C10_erased_target_amended (E : Nat) (s : TxState) (payload : List Nat) (L : Nat)
    (hlen0 : s.bank0.length < 65536) (hlen1 : s.bank1.length < 65536)
    (hwp : s.write_position ≤ (bankData s s.write_bank).length)
    (htail : ∀ i, i < (bankData s s.write_bank).length → s.write_position ≤ i →
      (bankData s s.write_bank).getD i 0 = E) :
    opsErasedOK E s (writeTx E s payload L).ops = true := by
  have hsz : sizeL = 2 := rfl
  by_cases hcap : min (remBytes s.bank0.length 0) (remBytes s.bank1.length 0)
      < 1 + sizeL + L + 1
  · have hfail : writeTx E s payload L = ⟨false, s, []⟩ :=
      writeFuel_fail E 1 s payload L hcap
    rw [hfail]
    rfl
  · have hcap0 : 1 + sizeL + L + 1 ≤ s.bank0.length := by
      have h := remBytes_eq (Nat.zero_le s.bank0.length) hlen0
      omega
    have hcap1 : 1 + sizeL + L + 1 ≤ s.bank1.length := by
      have h := remBytes_eq (Nat.zero_le s.bank1.length) hlen1
      omega
    rcases writeTx_cases E s payload L hcap with ⟨hfast, he⟩ | ⟨_, hwb, he⟩ | ⟨_, hwb, he⟩
    · have hwlen : (bankData s s.write_bank).length < 65536 := by
        cases s.write_bank
        · exact hlen0
        · exact hlen1
      rw [remBytes_eq hwp hwlen] at hfast
      rw [he]
      cases hwb : s.write_bank <;> rw [hwb] at htail hwp hfast <;>
        rw [show (fastResult E s payload L).ops =
          [Op.wchunk s.write_bank (s.write_position + 1) (le16 L),
           Op.wchunk s.write_bank (s.write_position + 1 + sizeL) (payload.take L),
           Op.wchunk s.write_bank s.write_position [recordByte E]] from rfl, hwb] <;>
        simp only [opsErasedOK, chunkErased, applyOp, bankData, Bool.true_and,
          Bool.and_true, Bool.and_eq_true] <;>
        refine ⟨?_, ?_, ?_⟩ <;>
        (rw [List.all_eq_true]; intro x hx; rw [beq_iff_eq]; rw [List.mem_range] at hx)
      · rw [le16_length] at hx
        exact htail _ (by omega) (by omega)
      · have hxL : x < L := by
          rw [List.length_take] at hx
          omega
        rw [writeBytes_getD_out _ _ _ _ (Or.inr (by rw [le16_length]; omega))]
        exact htail _ (by omega) (by omega)
      · have hx0 : x = 0 := Nat.lt_one_iff.mp hx
        subst hx0
        rw [writeBytes_getD_out _ _ _ _ (Or.inl (by omega)),
            writeBytes_getD_out _ _ _ _ (Or.inl (by omega))]
        exact htail _ (by omega) (by omega)
      · rw [le16_length] at hx
        exact htail _ (by omega) (by omega)
      · have hxL : x < L := by
          rw [List.length_take] at hx
          omega
        rw [writeBytes_getD_out _ _ _ _ (Or.inr (by rw [le16_length]; omega))]
        exact htail _ (by omega) (by omega)
      · have hx0 : x = 0 := Nat.lt_one_iff.mp hx
        subst hx0
        rw [writeBytes_getD_out _ _ _ _ (Or.inl (by omega)),
            writeBytes_getD_out _ _ _ _ (Or.inl (by omega))]
        exact htail _ (by omega) (by omega)
    · have hops1 : (fastResult E { s with write_bank := Bank.BANK1, write_position := 0,
                                           bank1 := List.replicate s.bank1.length E }
          payload L).ops =
          [Op.wchunk Bank.BANK1 (0 + 1) (le16 L),
           Op.wchunk Bank.BANK1 (0 + 1 + sizeL) (payload.take L),
           Op.wchunk Bank.BANK1 0 [recordByte E]] := rfl
      rw [he, wr_ops_mk, hops1]
      simp only [opsErasedOK, chunkErased, applyOp, bankData, Bool.true_and,
        Bool.and_true, Bool.and_eq_true]
      refine ⟨?_, ?_, ?_⟩ <;>
        (rw [List.all_eq_true]; intro x hx; rw [beq_iff_eq]; rw [List.mem_range] at hx)
      · rw [le16_length] at hx
        rw [replicate_getD, if_pos (by omega)]
      · have hxL : x < L := by
          rw [List.length_take] at hx
          omega
        rw [writeBytes_getD_out _ _ _ _ (Or.inr (by rw [le16_length]; omega)),
            replicate_getD, if_pos (by omega)]
      · have hx0 : x = 0 := Nat.lt_one_iff.mp hx
        subst hx0
        rw [writeBytes_getD_out _ _ _ _ (Or.inl (by omega)),
            writeBytes_getD_out _ _ _ _ (Or.inl (by omega)),
            replicate_getD, if_pos (by omega)]
    · have hops0 : (fastResult E { s with write_bank := Bank.BANK0, write_position := 0,
                                           bank0 := List.replicate s.bank0.length E }
          payload L).ops =
          [Op.wchunk Bank.BANK0 (0 + 1) (le16 L),
           Op.wchunk Bank.BANK0 (0 + 1 + sizeL) (payload.take L),
           Op.wchunk Bank.BANK0 0 [recordByte E]] := rfl
      rw [he, wr_ops_mk, hops0]
      simp only [opsErasedOK, chunkErased, applyOp, bankData, Bool.true_and,
        Bool.and_true, Bool.and_eq_true, List.cons_append, List.nil_append]
      refine ⟨?_, ?_, ?_⟩ <;>
        (rw [List.all_eq_true]; intro x hx; rw [beq_iff_eq]; rw [List.mem_range] at hx)
      · rw [le16_length] at hx
        rw [replicate_getD, if_pos (by omega)]
      · have hxL : x < L := by
          rw [List.length_take] at hx
          omega
        rw [writeBytes_getD_out _ _ _ _ (Or.inr (by rw [le16_length]; omega)),
            replicate_getD, if_pos (by omega)]
      · have hx0 : x = 0 := Nat.lt_one_iff.mp hx
        subst hx0
        rw [writeBytes_getD_out _ _ _ _ (Or.inl (by omega)),
            writeBytes_getD_out _ _ _ _ (Or.inl (by omega)),
            replicate_getD, if_pos (by omega)]

/-- C10 amended witness: a crash-free state (erased tail) on 10-byte banks. -/
theorem C10_erased_target_amended_witness :
    opsErasedOK 0 ⟨[1, 3, 0, 9, 9, 0, 0, 0, 0, 0], List.replicate 10 0,
      Bank.BANK0, Bank.BANK0, 0, 6⟩
      (writeTx 0 ⟨[1, 3, 0, 9, 9, 0, 0, 0, 0, 0], List.replicate 10 0,
        Bank.BANK0, Bank.BANK0, 0, 6⟩ [8, 8, 0] 3).ops = true :=
  C10_erased_target_amended 0 ⟨[1, 3, 0, 9, 9, 0, 0, 0, 0, 0], List.replicate 10 0,
      Bank.BANK0, Bank.BANK0, 0, 6⟩ [8, 8, 0] 3
    (by decide) (by decide) (by decide) (by decide)

/-- C1: crash safety — from any crash-free reachable engine state (`Inv`), for
every prefix of the bank-level operations (erases and chunk writes) issued by a
single `write`, a new engine constructed over the resulting bank contents
parses VALID (it is never unable to read), and its `read` returns either the
record that was valid before the write or the payload passed to the write —
never any other value. -/
theorem C1_crash_safety (E : Nat) (dflt : List Nat) (dlen : Nat) (s : TxState)
    (payload : List Nat) (L : Nat)
    (hInv : Inv E s) (hL : L < 65536) (hP : payload.length = L) :
    ∀ n,
      (parse E (applyOps E s ((writeTx E s payload L).ops.take n)).bank0
               (applyOps E s ((writeTx E s payload L).ops.take n)).bank1).1
        = PState.valid ∧
      (readTx (engineInit E dflt dlen
          (applyOps E s ((writeTx E s payload L).ops.take n)).bank0
          (applyOps E s ((writeTx E s payload L).ops.take n)).bank1) = readTx s ∨
       readTx (engineInit E dflt dlen
          (applyOps E s ((writeTx E s payload L).ops.take n)).bank0
          (applyOps E s ((writeTx E s payload L).ops.take n)).bank1) = payload) := by
  obtain ⟨hrw, hlen0, hlen1, hR, hscan, htail, hinact0, hinact1⟩ := hInv
  have hsz : sizeL = 2 := rfl
  have hPL : L ≤ payload.length := by omega
  have htake : payload.take L = payload := by
    rw [← hP, List.take_length]
  have hreadS : readTx s = readBytes (bankData s s.write_bank)
      (s.read_position + 1 + sizeL)
      (readLE16 (bankData s s.write_bank) (s.read_position + 1)) := by
    unfold readTx lengthTx
    rw [hrw]
  have hwlen : (bankData s s.write_bank).length < 65536 := by
    cases s.write_bank
    · exact hlen0
    · exact hlen1
  obtain ⟨-, hwpeq, hwplt, hwpE⟩ := ff_spec E (bankData s s.write_bank) hwlen
    ((bankData s s.write_bank).length + 1) 0 s.read_position s.write_position
    (Nat.zero_le _) hscan
  intro n
  by_cases hcap : min (remBytes s.bank0.length 0) (remBytes s.bank1.length 0)
      < 1 + sizeL + L + 1
  · have hfail : writeTx E s payload L = ⟨false, s, []⟩ :=
      writeFuel_fail E 1 s payload L hcap
    rw [hfail, wr_ops_mk, List.take_nil]
    cases hwb : s.write_bank
    · rw [hwb] at hR hscan
      obtain ⟨hv, hei⟩ := reconA E dflt dlen s.bank0 s.bank1
        s.read_position s.write_position hR (hinact0 hwb) hscan
      refine ⟨hv, Or.inl ?_⟩
      show readTx (engineInit E dflt dlen s.bank0 s.bank1) = readTx s
      rw [hei, readTx_mk0, hreadS, hwb]
      rfl
    · rw [hwb] at hR hscan
      obtain ⟨hv, hei⟩ := reconB E dflt dlen s.bank0 s.bank1
        s.read_position s.write_position (hinact1 hwb) hR hscan
      refine ⟨hv, Or.inl ?_⟩
      show readTx (engineInit E dflt dlen s.bank0 s.bank1) = readTx s
      rw [hei, readTx_mk1, hreadS, hwb]
      rfl
  · have hcap0 : 1 + sizeL + L + 1 ≤ s.bank0.length := by
      have h := remBytes_eq (Nat.zero_le s.bank0.length) hlen0
      omega
    have hcap1 : 1 + sizeL + L + 1 ≤ s.bank1.length := by
      have h := remBytes_eq (Nat.zero_le s.bank1.length) hlen1
      omega
    rcases writeTx_cases E s payload L hcap with ⟨hfast, he⟩ | ⟨hnf, hwb, he⟩ | ⟨hnf, hwb, he⟩
    · -- fast path in the active bank
      have hwp' : s.write_position ≤ (bankData s s.write_bank).length := by omega
      rw [remBytes_eq hwp' hwlen] at hfast
      rw [he]
      cases hwb : s.write_bank
      · rw [hwb] at hR hscan htail hfast hwpeq hwplt hwpE
        have hbd : bankData s Bank.BANK0 = s.bank0 := rfl
        rw [hbd] at hR hscan htail hfast hwpeq hwplt hwpE
        have hops : (fastResult E s payload L).ops =
            [Op.wchunk Bank.BANK0 (s.write_position + 1) (le16 L),
             Op.wchunk Bank.BANK0 (s.write_position + 1 + sizeL) (payload.take L),
             Op.wchunk Bank.BANK0 s.write_position [recordByte E]] := by
          rw [fastResult_ops, hwb]
        rw [hops]
        rcases n with _ | _ | _ | n
        · obtain ⟨hv, hei⟩ := reconA E dflt dlen s.bank0 s.bank1
            s.read_position s.write_position hR (hinact0 hwb) hscan
          refine ⟨hv, Or.inl ?_⟩
          show readTx (engineInit E dflt dlen s.bank0 s.bank1) = readTx s
          rw [hei, readTx_mk0, hreadS, hwb]
          rfl
        · have hag1 : ∀ i, i ≤ s.write_position →
              (writeBytes s.bank0 (s.write_position + 1) (le16 L)).getD i 0
                = s.bank0.getD i 0 :=
            fun i hi => partialImage1_getD s.bank0 s.write_position L i hi
          have hff1 : fastForward E (writeBytes s.bank0 (s.write_position + 1) (le16 L))
              = some (s.read_position, s.write_position) :=
            fastForward_agree E s.bank0 _ hlen0 (writeBytes_length _ _ _)
              s.read_position s.write_position hscan hag1
          obtain ⟨hv, hei⟩ := reconA E dflt dlen _ s.bank1
            s.read_position s.write_position
            ((hag1 0 (Nat.zero_le _)).trans hR) (hinact0 hwb) hff1
          refine ⟨hv, Or.inl ?_⟩
          show readTx (engineInit E dflt dlen
            (writeBytes s.bank0 (s.write_position + 1) (le16 L)) s.bank1) = readTx s
          rw [hei, readTx_mk0, hreadS, hwb]
          exact readAgree s.bank0 _ s.read_position s.write_position hag1 hwpeq
        · have hag2 : ∀ i, i ≤ s.write_position →
              (writeBytes (writeBytes s.bank0 (s.write_position + 1) (le16 L))
                (s.write_position + 1 + sizeL) (payload.take L)).getD i 0
                = s.bank0.getD i 0 :=
            fun i hi => partialImage2_getD s.bank0 s.write_position L payload i hi
          have hff2 : fastForward E (writeBytes (writeBytes s.bank0
              (s.write_position + 1) (le16 L)) (s.write_position + 1 + sizeL)
              (payload.take L)) = some (s.read_position, s.write_position) :=
            fastForward_agree E s.bank0 _ hlen0
              (by rw [writeBytes_length, writeBytes_length])
              s.read_position s.write_position hscan hag2
          obtain ⟨hv, hei⟩ := reconA E dflt dlen _ s.bank1
            s.read_position s.write_position
            ((hag2 0 (Nat.zero_le _)).trans hR) (hinact0 hwb) hff2
          refine ⟨hv, Or.inl ?_⟩
          show readTx (engineInit E dflt dlen
            (writeBytes (writeBytes s.bank0 (s.write_position + 1) (le16 L))
              (s.write_position + 1 + sizeL) (payload.take L)) s.bank1) = readTx s
          rw [hei, readTx_mk0, hreadS, hwb]
          exact readAgree s.bank0 _ s.read_position s.write_position hag2 hwpeq
        · simp only [List.take_succ_cons, List.take_nil]
          have hterm : (writeBytes (writeBytes (writeBytes s.bank0
              (s.write_position + 1) (le16 L)) (s.write_position + 1 + sizeL)
              (payload.take L)) s.write_position [recordByte E]).getD
              (s.write_position + 1 + sizeL + L) 0 = E := by
            rw [fastImage_getD_gt E s.bank0 s.write_position L payload _ (le_refl _) hPL]
            exact htail _ (by omega) (by omega)
          have hffF : fastForward E (writeBytes (writeBytes (writeBytes s.bank0
              (s.write_position + 1) (le16 L)) (s.write_position + 1 + sizeL)
              (payload.take L)) s.write_position [recordByte E])
              = some (s.write_position, s.write_position + 1 + sizeL + L) :=
            fastForward_extend E s.bank0 _ hlen0
              (by rw [writeBytes_length, writeBytes_length, writeBytes_length])
              L s.write_position s.read_position hscan
              (fun i hi => fastImage_getD_lt E s.bank0 s.write_position L payload i hi)
              (fastImage_getD_wp E s.bank0 s.write_position L payload (by omega))
              (fastImage_le16 E s.bank0 s.write_position L payload hL (by omega))
              (by omega) hterm
          obtain ⟨hv, hei⟩ := reconA E dflt dlen _ s.bank1
            s.write_position (s.write_position + 1 + sizeL + L)
            (fastImage_getD0 E s.bank0 s.write_position L payload (by omega) hR)
            (hinact0 hwb) hffF
          refine ⟨hv, Or.inr ?_⟩
          show readTx (engineInit E dflt dlen
            (writeBytes (writeBytes (writeBytes s.bank0 (s.write_position + 1) (le16 L))
              (s.write_position + 1 + sizeL) (payload.take L))
              s.write_position [recordByte E]) s.bank1) = payload
          rw [hei, readTx_mk0,
              readImage E s.bank0 s.write_position L payload hL hPL (by omega), htake]
      · rw [hwb] at hR hscan htail hfast hwpeq hwplt hwpE
        have hbd : bankData s Bank.BANK1 = s.bank1 := rfl
        rw [hbd] at hR hscan htail hfast hwpeq hwplt hwpE
        have hops : (fastResult E s payload L).ops =
            [Op.wchunk Bank.BANK1 (s.write_position + 1) (le16 L),
             Op.wchunk Bank.BANK1 (s.write_position + 1 + sizeL) (payload.take L),
             Op.wchunk Bank.BANK1 s.write_position [recordByte E]] := by
          rw [fastResult_ops, hwb]
        rw [hops]
        rcases n with _ | _ | _ | n
        · obtain ⟨hv, hei⟩ := reconB E dflt dlen s.bank0 s.bank1
            s.read_position s.write_position (hinact1 hwb) hR hscan
          refine ⟨hv, Or.inl ?_⟩
          show readTx (engineInit E dflt dlen s.bank0 s.bank1) = readTx s
          rw [hei, readTx_mk1, hreadS, hwb]
          rfl
        · have hag1 : ∀ i, i ≤ s.write_position →
              (writeBytes s.bank1 (s.write_position + 1) (le16 L)).getD i 0
                = s.bank1.getD i 0 :=
            fun i hi => partialImage1_getD s.bank1 s.write_position L i hi
          have hff1 : fastForward E (writeBytes s.bank1 (s.write_position + 1) (le16 L))
              = some (s.read_position, s.write_position) :=
            fastForward_agree E s.bank1 _ hlen1 (writeBytes_length _ _ _)
              s.read_position s.write_position hscan hag1
          obtain ⟨hv, hei⟩ := reconB E dflt dlen s.bank0 _
            s.read_position s.write_position (hinact1 hwb)
            ((hag1 0 (Nat.zero_le _)).trans hR) hff1
          refine ⟨hv, Or.inl ?_⟩
          show readTx (engineInit E dflt dlen s.bank0
            (writeBytes s.bank1 (s.write_position + 1) (le16 L))) = readTx s
          rw [hei, readTx_mk1, hreadS, hwb]
          exact readAgree s.bank1 _ s.read_position s.write_position hag1 hwpeq
        · have hag2 : ∀ i, i ≤ s.write_position →
              (writeBytes (writeBytes s.bank1 (s.write_position + 1) (le16 L))
                (s.write_position + 1 + sizeL) (payload.take L)).getD i 0
                = s.bank1.getD i 0 :=
            fun i hi => partialImage2_getD s.bank1 s.write_position L payload i hi
          have hff2 : fastForward E (writeBytes (writeBytes s.bank1
              (s.write_position + 1) (le16 L)) (s.write_position + 1 + sizeL)
              (payload.take L)) = some (s.read_position, s.write_position) :=
            fastForward_agree E s.bank1 _ hlen1
              (by rw [writeBytes_length, writeBytes_length])
              s.read_position s.write_position hscan hag2
          obtain ⟨hv, hei⟩ := reconB E dflt dlen s.bank0 _
            s.read_position s.write_position (hinact1 hwb)
            ((hag2 0 (Nat.zero_le _)).trans hR) hff2
          refine ⟨hv, Or.inl ?_⟩
          show readTx (engineInit E dflt dlen s.bank0
            (writeBytes (writeBytes s.bank1 (s.write_position + 1) (le16 L))
              (s.write_position + 1 + sizeL) (payload.take L))) = readTx s
          rw [hei, readTx_mk1, hreadS, hwb]
          exact readAgree s.bank1 _ s.read_position s.write_position hag2 hwpeq
        · simp only [List.take_succ_cons, List.take_nil]
          have hterm : (writeBytes (writeBytes (writeBytes s.bank1
              (s.write_position + 1) (le16 L)) (s.write_position + 1 + sizeL)
              (payload.take L)) s.write_position [recordByte E]).getD
              (s.write_position + 1 + sizeL + L) 0 = E := by
            rw [fastImage_getD_gt E s.bank1 s.write_position L payload _ (le_refl _) hPL]
            exact htail _ (by omega) (by omega)
          have hffF : fastForward E (writeBytes (writeBytes (writeBytes s.bank1
              (s.write_position + 1) (le16 L)) (s.write_position + 1 + sizeL)
              (payload.take L)) s.write_position [recordByte E])
              = some (s.write_position, s.write_position + 1 + sizeL + L) :=
            fastForward_extend E s.bank1 _ hlen1
              (by rw [writeBytes_length, writeBytes_length, writeBytes_length])
              L s.write_position s.read_position hscan
              (fun i hi => fastImage_getD_lt E s.bank1 s.write_position L payload i hi)
              (fastImage_getD_wp E s.bank1 s.write_position L payload (by omega))
              (fastImage_le16 E s.bank1 s.write_position L payload hL (by omega))
              (by omega) hterm
          obtain ⟨hv, hei⟩ := reconB E dflt dlen s.bank0 _
            s.write_position (s.write_position + 1 + sizeL + L) (hinact1 hwb)
            (fastImage_getD0 E s.bank1 s.write_position L payload (by omega) hR) hffF
          refine ⟨hv, Or.inr ?_⟩
          show readTx (engineInit E dflt dlen s.bank0
            (writeBytes (writeBytes (writeBytes s.bank1 (s.write_position + 1) (le16 L))
              (s.write_position + 1 + sizeL) (payload.take L))
              s.write_position [recordByte E])) = payload
          rw [hei, readTx_mk1,
              readImage E s.bank1 s.write_position L payload hL hPL (by omega), htake]
    · -- migration Bank0 -> Bank1
      rw [hwb] at hR hscan
      rw [he, wr_ops_mk]
      have hops1 : (fastResult E
          { s with write_bank := Bank.BANK1, write_position := 0,
                   bank1 := List.replicate s.bank1.length E } payload L).ops =
          [Op.wchunk Bank.BANK1 (0 + 1) (le16 L),
           Op.wchunk Bank.BANK1 (0 + 1 + sizeL) (payload.take L),
           Op.wchunk Bank.BANK1 0 [recordByte E]] := rfl
      rw [hops1]
      have hE1 : (List.replicate s.bank1.length E).getD 0 0 = E := by
        rw [replicate_getD, if_pos (by omega)]
      rcases n with _ | _ | _ | _ | n
      · obtain ⟨hv, hei⟩ := reconA E dflt dlen s.bank0 s.bank1
          s.read_position s.write_position hR (hinact0 hwb) hscan
        refine ⟨hv, Or.inl ?_⟩
        show readTx (engineInit E dflt dlen s.bank0 s.bank1) = readTx s
        rw [hei, readTx_mk0, hreadS, hwb]
        rfl
      · obtain ⟨hv, hei⟩ := reconA E dflt dlen s.bank0
          (List.replicate s.bank1.length E)
          s.read_position s.write_position hR hE1 hscan
        refine ⟨hv, Or.inl ?_⟩
        show readTx (engineInit E dflt dlen s.bank0
          (List.replicate s.bank1.length E)) = readTx s
        rw [hei, readTx_mk0, hreadS, hwb]
        rfl
      · obtain ⟨hv, hei⟩ := reconA E dflt dlen s.bank0
          (writeBytes (List.replicate s.bank1.length E) (0 + 1) (le16 L))
          s.read_position s.write_position hR
          (by rw [writeBytes_getD_out _ _ _ _ (Or.inl (by omega))]
              exact hE1) hscan
        refine ⟨hv, Or.inl ?_⟩
        show readTx (engineInit E dflt dlen s.bank0
          (writeBytes (List.replicate s.bank1.length E) (0 + 1) (le16 L))) = readTx s
        rw [hei, readTx_mk0, hreadS, hwb]
        rfl
      · obtain ⟨hv, hei⟩ := reconA E dflt dlen s.bank0
          (writeBytes (writeBytes (List.replicate s.bank1.length E) (0 + 1) (le16 L))
            (0 + 1 + sizeL) (payload.take L))
          s.read_position s.write_position hR
          (by rw [writeBytes_getD_out _ _ _ _ (Or.inl (by omega)),
                  writeBytes_getD_out _ _ _ _ (Or.inl (by omega))]
              exact hE1) hscan
        refine ⟨hv, Or.inl ?_⟩
        show readTx (engineInit E dflt dlen s.bank0
          (writeBytes (writeBytes (List.replicate s.bank1.length E) (0 + 1) (le16 L))
            (0 + 1 + sizeL) (payload.take L))) = readTx s
        rw [hei, readTx_mk0, hreadS, hwb]
        rfl
      · simp only [List.take_succ_cons, List.take_nil]
        have hffS : fastForward E (writeBytes (writeBytes (writeBytes
            (List.replicate s.bank1.length E) (0 + 1) (le16 L)) (0 + 1 + sizeL)
            (payload.take L)) 0 [recordByte E]) = some (0, 0 + 1 + sizeL + L) :=
          ff_single E _ L
            (by rw [writeBytes_length, writeBytes_length, writeBytes_length,
                    List.length_replicate]
                exact hlen1)
            (by rw [writeBytes_length, writeBytes_length, writeBytes_length,
                    List.length_replicate]
                omega)
            (fastImage_le16 E (List.replicate s.bank1.length E) 0 L payload hL
              (by rw [List.length_replicate]; omega))
            (by rw [fastImage_getD_gt E (List.replicate s.bank1.length E) 0 L payload _
                  (le_refl _) hPL]
                rw [replicate_getD, if_pos (by omega)])
        obtain ⟨hv, hei⟩ := reconB E dflt dlen s.bank0 _ 0 (0 + 1 + sizeL + L)
          (Or.inr hR)
          (fastImage_getD_wp E (List.replicate s.bank1.length E) 0 L payload
            (by rw [List.length_replicate]; omega)) hffS
        refine ⟨hv, Or.inr ?_⟩
        show readTx (engineInit E dflt dlen s.bank0
          (writeBytes (writeBytes (writeBytes (List.replicate s.bank1.length E)
            (0 + 1) (le16 L)) (0 + 1 + sizeL) (payload.take L)) 0 [recordByte E]))
          = payload
        rw [hei, readTx_mk1,
            readImage E (List.replicate s.bank1.length E) 0 L payload hL hPL
              (by rw [List.length_replicate]; omega), htake]
    · -- migration Bank1 -> Bank0, with the trailing erase of Bank1
      rw [hwb] at hR hscan
      rw [he, wr_ops_mk]
      have hops0 : Op.erase Bank.BANK0 ::
          (fastResult E
            { s with write_bank := Bank.BANK0, write_position := 0,
                     bank0 := List.replicate s.bank0.length E } payload L).ops
          ++ [Op.erase Bank.BANK1] =
          [Op.erase Bank.BANK0, Op.wchunk Bank.BANK0 (0 + 1) (le16 L),
           Op.wchunk Bank.BANK0 (0 + 1 + sizeL) (payload.take L),
           Op.wchunk Bank.BANK0 0 [recordByte E], Op.erase Bank.BANK1] := rfl
      rw [hops0]
      have hE0 : (List.replicate s.bank0.length E).getD 0 0 = E := by
        rw [replicate_getD, if_pos (by omega)]
      rcases n with _ | _ | _ | _ | _ | n
      · obtain ⟨hv, hei⟩ := reconB E dflt dlen s.bank0 s.bank1
          s.read_position s.write_position (hinact1 hwb) hR hscan
        refine ⟨hv, Or.inl ?_⟩
        show readTx (engineInit E dflt dlen s.bank0 s.bank1) = readTx s
        rw [hei, readTx_mk1, hreadS, hwb]
        rfl
      · obtain ⟨hv, hei⟩ := reconB E dflt dlen
          (List.replicate s.bank0.length E) s.bank1
          s.read_position s.write_position (Or.inl hE0) hR hscan
        refine ⟨hv, Or.inl ?_⟩
        show readTx (engineInit E dflt dlen (List.replicate s.bank0.length E) s.bank1)
          = readTx s
        rw [hei, readTx_mk1, hreadS, hwb]
        rfl
      · obtain ⟨hv, hei⟩ := reconB E dflt dlen
          (writeBytes (List.replicate s.bank0.length E) (0 + 1) (le16 L)) s.bank1
          s.read_position s.write_position
          (Or.inl (by rw [writeBytes_getD_out _ _ _ _ (Or.inl (by omega))]
                      exact hE0)) hR hscan
        refine ⟨hv, Or.inl ?_⟩
        show readTx (engineInit E dflt dlen
          (writeBytes (List.replicate s.bank0.length E) (0 + 1) (le16 L)) s.bank1)
          = readTx s
        rw [hei, readTx_mk1, hreadS, hwb]
        rfl
      · obtain ⟨hv, hei⟩ := reconB E dflt dlen
          (writeBytes (writeBytes (List.replicate s.bank0.length E) (0 + 1) (le16 L))
            (0 + 1 + sizeL) (payload.take L)) s.bank1
          s.read_position s.write_position
          (Or.inl (by rw [writeBytes_getD_out _ _ _ _ (Or.inl (by omega)),
                          writeBytes_getD_out _ _ _ _ (Or.inl (by omega))]
                      exact hE0)) hR hscan
        refine ⟨hv, Or.inl ?_⟩
        show readTx (engineInit E dflt dlen
          (writeBytes (writeBytes (List.replicate s.bank0.length E) (0 + 1) (le16 L))
            (0 + 1 + sizeL) (payload.take L)) s.bank1) = readTx s
        rw [hei, readTx_mk1, hreadS, hwb]
        rfl
      · obtain ⟨hv, hei⟩ := reconB E dflt dlen
          (writeBytes (writeBytes (writeBytes (List.replicate s.bank0.length E)
            (0 + 1) (le16 L)) (0 + 1 + sizeL) (payload.take L)) 0 [recordByte E]) s.bank1
          s.read_position s.write_position
          (Or.inr (fastImage_getD_wp E (List.replicate s.bank0.length E) 0 L payload
            (by rw [List.length_replicate]; omega))) hR hscan
        refine ⟨hv, Or.inl ?_⟩
        show readTx (engineInit E dflt dlen
          (writeBytes (writeBytes (writeBytes (List.replicate s.bank0.length E)
            (0 + 1) (le16 L)) (0 + 1 + sizeL) (payload.take L)) 0 [recordByte E])
          s.bank1) = readTx s
        rw [hei, readTx_mk1, hreadS, hwb]
        rfl
      · simp only [List.take_succ_cons, List.take_nil]
        have hffS : fastForward E (writeBytes (writeBytes (writeBytes
            (List.replicate s.bank0.length E) (0 + 1) (le16 L)) (0 + 1 + sizeL)
            (payload.take L)) 0 [recordByte E]) = some (0, 0 + 1 + sizeL + L) :=
          ff_single E _ L
            (by rw [writeBytes_length, writeBytes_length, writeBytes_length,
                    List.length_replicate]
                exact hlen0)
            (by rw [writeBytes_length, writeBytes_length, writeBytes_length,
                    List.length_replicate]
                omega)
            (fastImage_le16 E (List.replicate s.bank0.length E) 0 L payload hL
              (by rw [List.length_replicate]; omega))
            (by rw [fastImage_getD_gt E (List.replicate s.bank0.length E) 0 L payload _
                  (le_refl _) hPL]
                rw [replicate_getD, if_pos (by omega)])
        obtain ⟨hv, hei⟩ := reconA E dflt dlen _
          (List.replicate s.bank1.length E) 0 (0 + 1 + sizeL + L)
          (fastImage_getD_wp E (List.replicate s.bank0.length E) 0 L payload
            (by rw [List.length_replicate]; omega))
          (by rw [replicate_getD, if_pos (by omega)]) hffS
        refine ⟨hv, Or.inr ?_⟩
        show readTx (engineInit E dflt dlen
          (writeBytes (writeBytes (writeBytes (List.replicate s.bank0.length E)
            (0 + 1) (le16 L)) (0 + 1 + sizeL) (payload.take L)) 0 [recordByte E])
          (List.replicate s.bank1.length E)) = payload
        rw [hei, readTx_mk0,
            readImage E (List.replicate s.bank0.length E) 0 L payload hL hPL
              (by rw [List.length_replicate]; omega), htake]


theorem C1_crash_safety_witness :
    Inv 0 (⟨[1, 3, 0, 9, 9, 0, 0, 0, 0, 0], List.replicate 10 0,
        Bank.BANK0, Bank.BANK0, 0, 6⟩ : TxState) ∧ 3 < 65536 ∧
      ([7, 8, 9] : List Nat).length = 3 ∧
      ((parse 0
          (applyOps 0 (⟨[1, 3, 0, 9, 9, 0, 0, 0, 0, 0], List.replicate 10 0,
              Bank.BANK0, Bank.BANK0, 0, 6⟩ : TxState)
            ((writeTx 0 (⟨[1, 3, 0, 9, 9, 0, 0, 0, 0, 0], List.replicate 10 0,
              Bank.BANK0, Bank.BANK0, 0, 6⟩ : TxState) [7, 8, 9] 3).ops.take 5)).bank0
          (applyOps 0 (⟨[1, 3, 0, 9, 9, 0, 0, 0, 0, 0], List.replicate 10 0,
              Bank.BANK0, Bank.BANK0, 0, 6⟩ : TxState)
            ((writeTx 0 (⟨[1, 3, 0, 9, 9, 0, 0, 0, 0, 0], List.replicate 10 0,
              Bank.BANK0, Bank.BANK0, 0, 6⟩ : TxState) [7, 8, 9] 3).ops.take 5)).bank1).1
        = PState.valid ∧
      (readTx (engineInit 0 [] 0
          (applyOps 0 (⟨[1, 3, 0, 9, 9, 0, 0, 0, 0, 0], List.replicate 10 0,
              Bank.BANK0, Bank.BANK0, 0, 6⟩ : TxState)
            ((writeTx 0 (⟨[1, 3, 0, 9, 9, 0, 0, 0, 0, 0], List.replicate 10 0,
              Bank.BANK0, Bank.BANK0, 0, 6⟩ : TxState) [7, 8, 9] 3).ops.take 5)).bank0
          (applyOps 0 (⟨[1, 3, 0, 9, 9, 0, 0, 0, 0, 0], List.replicate 10 0,
              Bank.BANK0, Bank.BANK0, 0, 6⟩ : TxState)
            ((writeTx 0 (⟨[1, 3, 0, 9, 9, 0, 0, 0, 0, 0], List.replicate 10 0,
              Bank.BANK0, Bank.BANK0, 0, 6⟩ : TxState) [7, 8, 9] 3).ops.take 5)).bank1)
        = readTx (⟨[1, 3, 0, 9, 9, 0, 0, 0, 0, 0], List.replicate 10 0,
              Bank.BANK0, Bank.BANK0, 0, 6⟩ : TxState) ∨
       readTx (engineInit 0 [] 0
          (applyOps 0 (⟨[1, 3, 0, 9, 9, 0, 0, 0, 0, 0], List.replicate 10 0,
              Bank.BANK0, Bank.BANK0, 0, 6⟩ : TxState)
            ((writeTx 0 (⟨[1, 3, 0, 9, 9, 0, 0, 0, 0, 0], List.replicate 10 0,
              Bank.BANK0, Bank.BANK0, 0, 6⟩ : TxState) [7, 8, 9] 3).ops.take 5)).bank0
          (applyOps 0 (⟨[1, 3, 0, 9, 9, 0, 0, 0, 0, 0], List.replicate 10 0,
              Bank.BANK0, Bank.BANK0, 0, 6⟩ : TxState)
            ((writeTx 0 (⟨[1, 3, 0, 9, 9, 0, 0, 0, 0, 0], List.replicate 10 0,
              Bank.BANK0, Bank.BANK0, 0, 6⟩ : TxState) [7, 8, 9] 3).ops.take 5)).bank1)
        = [7, 8, 9])) :=
  ⟨by decide, by decide, by decide,
    C1_crash_safety 0 [] 0 _ [7, 8, 9] 3 (by decide) (by decide) (by decide) 5⟩


/-- C2: round-trip — for a payload `P` of length `L` that fits both banks,
`write(P, L)` returns true, the next `length()` returns `L`, and the next
`read` reproduces exactly the bytes of `P`. -/
theorem C2_round_trip (E : Nat) (s : TxState) (P : List Nat) (L : Nat)
    (hlen0 : s.bank0.length < 65536) (hlen1 : s.bank1.length < 65536)
    (hwp : s.write_position ≤ (bankData s s.write_bank).length)
    (hL : L < 65536) (hP : P.length = L)
    (hmin : 1 + sizeL + 1 ≤ min s.bank0.length s.bank1.length)
    (hfit : L ≤ min s.bank0.length s.bank1.length - 1 - sizeL - 1) :
    (writeTx E s P L).ok = true ∧
    lengthTx (writeTx E s P L).st = L ∧
    readTx (writeTx E s P L).st = P := by
  have hsz : sizeL = 2 := rfl
  have hr0 : remBytes s.bank0.length 0 = s.bank0.length := by
    rw [remBytes_eq (Nat.zero_le _) hlen0, Nat.sub_zero]
  have hr1 : remBytes s.bank1.length 0 = s.bank1.length := by
    rw [remBytes_eq (Nat.zero_le _) hlen1, Nat.sub_zero]
  have hcap : ¬ min (remBytes s.bank0.length 0) (remBytes s.bank1.length 0)
      < 1 + sizeL + L + 1 := by
    rw [hr0, hr1]
    omega
  have hPL : L ≤ P.length := by omega
  have htake : P.take L = P := by
    rw [← hP, List.take_length]
  have hwlen : (bankData s s.write_bank).length < 65536 := by
    cases s.write_bank
    · exact hlen0
    · exact hlen1
  rcases writeTx_cases E s P L hcap with ⟨hfast, he⟩ | ⟨_, hwb, he⟩ | ⟨_, hwb, he⟩
  · rw [he]
    rw [remBytes_eq hwp hwlen] at hfast
    obtain ⟨hl, hrd⟩ := fastResult_read E s P L hL hPL (by omega)
    exact ⟨rfl, hl, by rw [hrd]; exact htake⟩
  · rw [he]
    obtain ⟨hl, hrd⟩ := fastResult_read E
      { s with write_bank := Bank.BANK1, write_position := 0,
               bank1 := List.replicate s.bank1.length E } P L hL hPL
      (by show (0 : Nat) + 1 + sizeL + L + 1 ≤ (List.replicate s.bank1.length E).length
          rw [List.length_replicate]
          omega)
    exact ⟨rfl, hl, by rw [hrd]; exact htake⟩
  · rw [he]
    have hread : ∀ X : TxState, X.read_bank = Bank.BANK0 →
        lengthTx (applyOp E X (Op.erase Bank.BANK1)) = lengthTx X ∧
        readTx (applyOp E X (Op.erase Bank.BANK1)) = readTx X := by
      intro X hX
      constructor
      · unfold lengthTx
        rw [show (applyOp E X (Op.erase Bank.BANK1)).read_bank = X.read_bank from rfl, hX]
        rfl
      · unfold readTx lengthTx
        rw [show (applyOp E X (Op.erase Bank.BANK1)).read_bank = X.read_bank from rfl, hX]
        rfl
    obtain ⟨hl1, hrd1⟩ := hread (fastResult E
      { s with write_bank := Bank.BANK0, write_position := 0,
               bank0 := List.replicate s.bank0.length E } P L).st
      (fastResult_read_bank E _ P L)
    obtain ⟨hl, hrd⟩ := fastResult_read E
      { s with write_bank := Bank.BANK0, write_position := 0,
               bank0 := List.replicate s.bank0.length E } P L hL hPL
      (by show (0 : Nat) + 1 + sizeL + L + 1 ≤ (List.replicate s.bank0.length E).length
          rw [List.length_replicate]
          omega)
    refine ⟨rfl, ?_, ?_⟩
    · show lengthTx (applyOp E _ (Op.erase Bank.BANK1)) = L
      rw [hl1, hl]
    · show readTx (applyOp E _ (Op.erase Bank.BANK1)) = P
      rw [hrd1, hrd, htake]

/-- C2 witness: writing a 5-byte payload into a fresh engine over 20-byte banks
round-trips. -/
theorem C2_round_trip_witness :
    (writeTx 0 ⟨[1, 3, 0, 9, 9, 0, 0, 0, 0, 0, 0, 0, 0, 0, 0, 0, 0, 0, 0, 0],
       List.replicate 20 0, Bank.BANK0, Bank.BANK0, 0, 6⟩ [7, 8, 9, 10, 0] 5).ok = true ∧
    lengthTx (writeTx 0 ⟨[1, 3, 0, 9, 9, 0, 0, 0, 0, 0, 0, 0, 0, 0, 0, 0, 0, 0, 0, 0],
       List.replicate 20 0, Bank.BANK0, Bank.BANK0, 0, 6⟩ [7, 8, 9, 10, 0] 5).st = 5 ∧
    readTx (writeTx 0 ⟨[1, 3, 0, 9, 9, 0, 0, 0, 0, 0, 0, 0, 0, 0, 0, 0, 0, 0, 0, 0],
       List.replicate 20 0, Bank.BANK0, Bank.BANK0, 0, 6⟩ [7, 8, 9, 10, 0] 5).st
      = [7, 8, 9, 10, 0] :=
  C2_round_trip 0 _ [7, 8, 9, 10, 0] 5 (by decide) (by decide) (by decide) (by decide)
    (by decide) (by decide) (by decide)

set_option maxRecDepth 4000 in
/-- C8: `reset` erases Bank0 and Bank1, zeroes all four cursors onto BANK0,
then invokes `write(default_payload, default_length)`; with a default that
fits, the next `read` returns the default payload (and `length()` its length). -/
theorem C8_reset (E : Nat) (dflt : List Nat) (dlen : Nat) (s : TxState)
    (hlen0 : s.bank0.length < 65536) (hlen1 : s.bank1.length < 65536)
    (hfit : 1 + sizeL + dlen + 1 ≤ min s.bank0.length s.bank1.length)
    (hpay : dflt.length = dlen) :
    resetTx E dflt dlen s =
      ⟨(writeTx E ⟨List.replicate s.bank0.length E, List.replicate s.bank1.length E,
          Bank.BANK0, Bank.BANK0, 0, 0⟩ dflt dlen).ok,
       (writeTx E ⟨List.replicate s.bank0.length E, List.replicate s.bank1.length E,
          Bank.BANK0, Bank.BANK0, 0, 0⟩ dflt dlen).st,
       Op.erase Bank.BANK0 :: Op.erase Bank.BANK1 ::
         (writeTx E ⟨List.replicate s.bank0.length E, List.replicate s.bank1.length E,
            Bank.BANK0, Bank.BANK0, 0, 0⟩ dflt dlen).ops⟩ ∧
    readTx (resetTx E dflt dlen s).st = dflt ∧
    lengthTx (resetTx E dflt dlen s).st = dlen := by
  have hsz : sizeL = 2 := rfl
  have hdlen : dlen < 65536 := by omega
  have hstruct : resetTx E dflt dlen s =
      ⟨(writeTx E ⟨List.replicate s.bank0.length E, List.replicate s.bank1.length E,
          Bank.BANK0, Bank.BANK0, 0, 0⟩ dflt dlen).ok,
       (writeTx E ⟨List.replicate s.bank0.length E, List.replicate s.bank1.length E,
          Bank.BANK0, Bank.BANK0, 0, 0⟩ dflt dlen).st,
       Op.erase Bank.BANK0 :: Op.erase Bank.BANK1 ::
         (writeTx E ⟨List.replicate s.bank0.length E, List.replicate s.bank1.length E,
            Bank.BANK0, Bank.BANK0, 0, 0⟩ dflt dlen).ops⟩ := rfl
  have hcap : ¬ min (remBytes (List.replicate s.bank0.length E).length 0)
      (remBytes (List.replicate s.bank1.length E).length 0) < 1 + sizeL + dlen + 1 := by
    rw [List.length_replicate, List.length_replicate,
        remBytes_eq (Nat.zero_le _) hlen0, remBytes_eq (Nat.zero_le _) hlen1,
        Nat.sub_zero, Nat.sub_zero]
    omega
  have hfast : 1 + sizeL + dlen + 1 ≤ remBytes
      (bankData ⟨List.replicate s.bank0.length E, List.replicate s.bank1.length E,
        Bank.BANK0, Bank.BANK0, 0, 0⟩ Bank.BANK0).length 0 := by
    show 1 + sizeL + dlen + 1 ≤ remBytes (List.replicate s.bank0.length E).length 0
    rw [List.length_replicate, remBytes_eq (Nat.zero_le _) hlen0, Nat.sub_zero]
    omega
  have hw : writeTx E ⟨List.replicate s.bank0.length E, List.replicate s.bank1.length E,
      Bank.BANK0, Bank.BANK0, 0, 0⟩ dflt dlen =
      fastResult E ⟨List.replicate s.bank0.length E, List.replicate s.bank1.length E,
        Bank.BANK0, Bank.BANK0, 0, 0⟩ dflt dlen :=
    writeFuel_fast E 1 _ dflt dlen hcap hfast
  obtain ⟨hl, hrd⟩ := fastResult_read E
    ⟨List.replicate s.bank0.length E, List.replicate s.bank1.length E,
      Bank.BANK0, Bank.BANK0, 0, 0⟩ dflt dlen hdlen (by omega)
    (by show 0 + 1 + sizeL + dlen + 1 ≤ (List.replicate s.bank0.length E).length
        rw [List.length_replicate]
        omega)
  have htake : dflt.take dlen = dflt := by
    rw [← hpay, List.take_length]
  refine ⟨hstruct, ?_, ?_⟩
  · rw [hstruct, wr_st_mk, hw, hrd, htake]
  · rw [hstruct, wr_st_mk, hw, hl]

/-- C8 witness: resetting a concrete engine with default payload `[7,7,0]`. -/
theorem C8_reset_witness :
    readTx (resetTx 0 [7, 7, 0] 3 ⟨[1, 3, 0, 9, 9, 0, 0, 0, 0, 0],
      List.replicate 10 0, Bank.BANK0, Bank.BANK0, 0, 6⟩).st = [7, 7, 0] :=
  (C8_reset 0 [7, 7, 0] 3 ⟨[1, 3, 0, 9, 9, 0, 0, 0, 0, 0],
      List.replicate 10 0, Bank.BANK0, Bank.BANK0, 0, 6⟩
    (by decide) (by decide) (by decide) (by decide)).2.1

/-- C9 counterexample: constructed with a zero-length default over erased
20-byte banks, the engine leaves `write_position = 3` — not `0` as the claim
states — and a subsequent `length()` deterministically returns `0`, read back
from the length field the initial write programmed, not from erased bytes. -/
theorem C9_zero_default_cex :
    (engineInit 0 [] 0 (List.replicate 20 0) (List.replicate 20 0)).write_position = 3 ∧
    ¬ (engineInit 0 [] 0 (List.replicate 20 0) (List.replicate 20 0)).write_position = 0 ∧
    lengthTx (engineInit 0 [] 0 (List.replicate 20 0) (List.replicate 20 0)) = 0 := by
  decide

/-- C9 amended: constructed with `default_length == 0` over empty flash, the
initial `write(default_payload, 0)` emits a complete empty record (length field
`0` at offsets 1..2, RECORD header at 0), leaving `read_position = 0` and
`write_position = 1 + sizeof(position_t) = 3`; a subsequent `length()` returns
`0`, read from the written length field. -/
theorem C9_zero_default_amended (E : Nat) (n : Nat) (dflt : List Nat)
    (hn : 4 ≤ n) (hlen : n < 65536) :
    (engineInit E dflt 0 (List.replicate n E) (List.replicate n E)).write_position
      = 1 + sizeL ∧
    (engineInit E dflt 0 (List.replicate n E) (List.replicate n E)).read_position = 0 ∧
    lengthTx (engineInit E dflt 0 (List.replicate n E) (List.replicate n E)) = 0 := by
  have hsz : sizeL = 2 := rfl
  have hg : (List.replicate n E).getD 0 0 = E := by
    rw [replicate_getD, if_pos (by omega)]
  have he := engineInit_empty E dflt 0 (List.replicate n E) (List.replicate n E) hg hg
  have hrem : remBytes (List.replicate n E).length 0 = n := by
    rw [List.length_replicate, remBytes_eq (Nat.zero_le _) hlen, Nat.sub_zero]
  have hcap : ¬ min (remBytes (List.replicate n E).length 0)
      (remBytes (List.replicate n E).length 0) < 1 + sizeL + 0 + 1 := by
    rw [hrem]
    omega
  have hfast : 1 + sizeL + 0 + 1 ≤
      remBytes (bankData ⟨List.replicate n E, List.replicate n E,
        Bank.BANK0, Bank.BANK0, 0, 0⟩ Bank.BANK0).length 0 := by
    show 1 + sizeL + 0 + 1 ≤ remBytes (List.replicate n E).length 0
    rw [hrem]
    omega
  have hw : writeTx E ⟨List.replicate n E, List.replicate n E,
      Bank.BANK0, Bank.BANK0, 0, 0⟩ dflt 0 =
      fastResult E ⟨List.replicate n E, List.replicate n E,
        Bank.BANK0, Bank.BANK0, 0, 0⟩ dflt 0 :=
    writeFuel_fast E 1 _ dflt 0 hcap hfast
  rw [he, hw]
  refine ⟨?_, rfl, ?_⟩
  · rw [fastResult_write_position]
    show (0 + 1 + sizeL + 0) % 65536 = 1 + sizeL
    rw [hsz]
  · show readLE16 (bankData (fastResult E ⟨List.replicate n E, List.replicate n E,
      Bank.BANK0, Bank.BANK0, 0, 0⟩ dflt 0).st Bank.BANK0) (0 + 1) = 0
    have ha := fastResult_active E ⟨List.replicate n E, List.replicate n E,
      Bank.BANK0, Bank.BANK0, 0, 0⟩ dflt 0
    rw [show bankData (⟨List.replicate n E, List.replicate n E,
        Bank.BANK0, Bank.BANK0, 0, 0⟩ : TxState) Bank.BANK0 = List.replicate n E from rfl] at ha
    rw [ha]
    exact fastImage_le16 E (List.replicate n E) 0 0 dflt (by omega)
      (by rw [List.length_replicate]; omega)

/-- C9 amended witness: the construction over erased 20-byte banks with erased
value `0xff` and a null default. -/
theorem C9_zero_default_amended_witness :
    (engineInit 255 [] 0 (List.replicate 20 255) (List.replicate 20 255)).write_position
      = 1 + sizeL ∧
    (engineInit 255 [] 0 (List.replicate 20 255) (List.replicate 20 255)).read_position = 0 ∧
    lengthTx (engineInit 255 [] 0 (List.replicate 20 255) (List.replicate 20 255)) = 0 :=
  C9_zero_default_amended 255 20 [] (by decide) (by decide)

/-- C5 witness: the scan of a concrete two-record bank takes the RECORD step at
position 0 and the VALID step at position 8. -/
theorem C5_fast_forward_scan_witness :
    (20 : Nat) < 65536 ∧
    ffAux 0 [1, 5, 0, 7, 7, 7, 7, 0, 1, 3, 0, 9, 9, 0, 0, 0, 0, 0, 0, 0] 21 0
      = ffAux 0 [1, 5, 0, 7, 7, 7, 7, 0, 1, 3, 0, 9, 9, 0, 0, 0, 0, 0, 0, 0] 20 8 ∧
    ffAux 0 [1, 5, 0, 7, 7, 7, 7, 0, 1, 3, 0, 9, 9, 0, 0, 0, 0, 0, 0, 0] 20 8
      = some (8, 14) :=
  ⟨by decide,
   ((C5_fast_forward_scan 0 [1, 5, 0, 7, 7, 7, 7, 0, 1, 3, 0, 9, 9, 0, 0, 0, 0, 0, 0, 0]
       20 0 (by decide) (by decide)).2.2 5 (by decide) (by decide)).2
     (by decide) |>.2.1 (by decide) (by decide),
   ((C5_fast_forward_scan 0 [1, 5, 0, 7, 7, 7, 7, 0, 1, 3, 0, 9, 9, 0, 0, 0, 0, 0, 0, 0]
       19 8 (by decide) (by decide)).2.2 3 (by decide) (by decide)).2
     (by decide) |>.1 (by decide)⟩

end Txf
